import Mathlib

/-!
# Traffic junction simulator: lane queues and scheduling

A shallow embedding of `src/queue.h`, `src/queue.c` and the scheduling and ingestion
parts of `src/simulator.c`, followed by theorems about it.

Conventions of the embedding.

* C `int` values are `Int`.  On a state the program can reach the fields of a queue
  and the scores stay within `-1 .. 1000`, so no wrap-around is modelled; the counter
  of status lines is taken as unbounded.  The `int` that `atoi` returns is the `long`
  of `strtol` reduced modulo `2^32`, as in glibc.
* A reading of `SDL_GetTicks` is a `Nat`, taken modulo `2^32`.
* A finite `float` is the integer count of units of `2^-149` it is worth (every finite
  32-bit float is such a multiple); the arithmetic on the clock is IEEE-754 binary32
  with rounding to nearest, ties to even, each operation rounded to `float`.
* The C operator `%` on `int` truncates toward zero; it is `Int.tmod`.
* A C array is a total map from its index to its element; that the indices the
  code uses stay inside the array is a theorem (`QInv`), not part of the type.
* A pointer to one of the twelve global lane queues is a value of `LaneRef`.
* Every `printf` of the scheduling and ingestion code is a constructor of `Output`; a
  function that prints appends to the `out` field of the state.
* The input file is the list of its bytes, a character standing for one byte;
  `fileLines` gives the lines `fgets` delivers into `char line[100]`, of at most 99
  bytes each.
-/

namespace TrafficSim

/-! ## queue.h -/

/-- The constant `MAX_QUEUE_SIZE` of `queue.h`. -/
def MAX_QUEUE_SIZE : Int := 200

/-- The struct `Vehicle` of `queue.h`. -/
structure Vehicle where
  vehicle_id : String
  road : Char
  lane : Int
deriving DecidableEq, Repr

/-- The struct `Queue` of `queue.h`; `items` maps an array index to its slot. -/
structure Queue where
  items : Int → Vehicle
  front : Int
  rear : Int
  count : Int
  priority : Int

/-! ## queue.c -/

/-- C function `init_queue`: resets the four scalar fields, leaves `items` alone. -/
def init_queue (q : Queue) : Queue :=
  { q with front := 0, rear := -1, count := 0, priority := 0 }

/-- C function `is_empty`. -/
def is_empty (q : Queue) : Bool := decide (q.count = 0)

/-- C function `is_full`. -/
def is_full (q : Queue) : Bool := decide (q.count = MAX_QUEUE_SIZE)

/-- The slot `enqueue` writes to: `(q->rear + 1) % MAX_QUEUE_SIZE`. -/
def enqueueIndex (q : Queue) : Int := Int.tmod (q.rear + 1) MAX_QUEUE_SIZE

/-- C function `enqueue`. -/
def enqueue (q : Queue) (vehicle : Vehicle) : Queue :=
  if !is_full q then
    { q with
      rear := enqueueIndex q
      items := Function.update q.items (enqueueIndex q) vehicle
      count := q.count + 1 }
  else q

/-- The local `empty` of `dequeue`: `{"", ' ', 0}`. -/
def emptyVehicle : Vehicle := { vehicle_id := "", road := ' ', lane := 0 }

/-- C function `dequeue`: the returned vehicle and the queue afterwards. -/
def dequeue (q : Queue) : Vehicle × Queue :=
  if !is_empty q then
    (q.items q.front,
     { q with front := Int.tmod (q.front + 1) MAX_QUEUE_SIZE, count := q.count - 1 })
  else (emptyVehicle, q)

/-- C function `get_count`. -/
def get_count (q : Queue) : Int := q.count

/-- C function `set_priority`. -/
def set_priority (q : Queue) (priority : Int) : Queue := { q with priority := priority }

/-- C function `get_priority`. -/
def get_priority (q : Queue) : Int := q.priority

/-! ## Sequences of queue calls -/

/-- One call a client makes on a queue. -/
inductive QueueOp where
  | enq (v : Vehicle)
  | deq
  | setPrio (p : Int)

/-- Runs the calls in order on the C queue; the second component lists what the
`dequeue` calls returned, in order. -/
def runOps (q : Queue) : List QueueOp → Queue × List Vehicle
  | [] => (q, [])
  | QueueOp.enq v :: ops => runOps (enqueue q v) ops
  | QueueOp.deq :: ops =>
      ((runOps (dequeue q).2 ops).1, (dequeue q).1 :: (runOps (dequeue q).2 ops).2)
  | QueueOp.setPrio p :: ops => runOps (set_priority q p) ops

/-- The vehicles a queue holds, oldest first, read off the ring buffer. -/
def contents (q : Queue) : List Vehicle :=
  (List.range q.count.toNat).map fun (i : Nat) => q.items ((q.front + (i : Int)) % MAX_QUEUE_SIZE)

/-- The specification's queue: a list, appended to at the tail while it holds fewer
than 200 vehicles. -/
def fifoEnqueue (l : List Vehicle) (v : Vehicle) : List Vehicle :=
  if l.length < 200 then l ++ [v] else l

/-- The specification's queue: the head is removed and returned; an empty list
yields the empty sentinel. -/
def fifoDequeue : List Vehicle → Vehicle × List Vehicle
  | [] => (emptyVehicle, [])
  | v :: l => (v, l)

/-- Runs the calls in order on the specification's list. -/
def fifoRun (l : List Vehicle) : List QueueOp → List Vehicle × List Vehicle
  | [] => (l, [])
  | QueueOp.enq v :: ops => fifoRun (fifoEnqueue l v) ops
  | QueueOp.deq :: ops =>
      ((fifoRun (fifoDequeue l).2 ops).1, (fifoDequeue l).1 :: (fifoRun (fifoDequeue l).2 ops).2)
  | QueueOp.setPrio _ :: ops => fifoRun l ops

/-- The representation invariant of the ring buffer. -/
def QInv (q : Queue) : Prop :=
  (0 ≤ q.count ∧ q.count ≤ 200) ∧ (0 ≤ q.front ∧ q.front < 200) ∧
  (-1 ≤ q.rear ∧ q.rear < 200) ∧ (q.rear + 1) % 200 = (q.front + q.count) % 200

/-- The queue states a client can reach from `init_queue`. -/
inductive QReachable : Queue → Prop where
  | init (q : Queue) : QReachable (init_queue q)
  | enqueue {q : Queue} (v : Vehicle) : QReachable q → QReachable (enqueue q v)
  | dequeue {q : Queue} : QReachable q → QReachable (dequeue q).2
  | set_priority {q : Queue} (p : Int) : QReachable q → QReachable (set_priority q p)

/-! ## simulator.c: constants, globals and shared data -/

/-- The constant `PRIORITY_COOLDOWN`. -/
def PRIORITY_COOLDOWN : Int := 10

/-- The constant `EMERGENCY_THRESHOLD`. -/
def EMERGENCY_THRESHOLD : Int := 15

/-- The constant `HIGH_PRIORITY_THRESHOLD`. -/
def HIGH_PRIORITY_THRESHOLD : Int := 10

/-- The constant `NORMAL_PRIORITY_THRESHOLD`. -/
def NORMAL_PRIORITY_THRESHOLD : Int := 5

/-! ### The `float` clock -/

/-- The number of units of `2^-149` in 1.0: a finite `float` is kept as the integer count
of these units it is worth. -/
def F32_SCALE : Nat := 2 ^ 149

/-- The integer nearest to `p / q`, ties going to the even one (`q > 0`). -/
def roundHalfEven (p q : Nat) : Nat :=
  if 2 * (p % q) < q then p / q
  else if q < 2 * (p % q) then p / q + 1
  else if (p / q) % 2 = 0 then p / q
  else p / q + 1

/-- The search for the spacing of the floats around `f` units: the first power of two
`sp`, from the given one, with `f < 2^24 * sp`. -/
def f32SpacingFrom : Nat → Nat → Nat → Nat
  | 0, _, sp => sp
  | k + 1, f, sp => if f < 2 ^ 24 * sp then sp else f32SpacingFrom k f (2 * sp)

/-- The spacing, in units, of the floats around a value of `f` units: 1 below `2^24`
units (24-bit significands, the subnormals included), doubling with each binade. -/
def f32Spacing (f : Nat) : Nat := f32SpacingFrom 256 f 1

/-- The `float` nearest to `p / q` units (ties to even), for a non-negative value below
the overflow threshold. -/
def f32RoundNat (p q : Nat) : Nat :=
  roundHalfEven p (q * f32Spacing (p / q)) * f32Spacing (p / q)

/-- The `float` nearest to `p / q` units, for either sign. -/
def f32Round (p : Int) (q : Nat) : Int :=
  if p < 0 then -((f32RoundNat p.natAbs q : Nat) : Int) else ((f32RoundNat p.toNat q : Nat) : Int)

/-- The conversion of a `Uint32` to `float`. -/
def f32OfUInt32 (n : Nat) : Int := f32Round ((n % 2 ^ 32 * F32_SCALE : Nat) : Int) 1

/-- The `float` quotient of the float `a` by the positive float `b`. -/
def f32Div (a : Int) (b : Nat) : Int := f32Round (a * (F32_SCALE : Int)) b

/-- The `float` difference `a - b`. -/
def f32Sub (a b : Int) : Int := f32Round (a - b) 1

/-- The expression `SDL_GetTicks() / 1000.0f` for a reading `ticks` of `SDL_GetTicks`. -/
def currentTimeOf (ticks : Nat) : Int := f32Div (f32OfUInt32 ticks) (1000 * F32_SCALE)

/-- The constant `TIME_PER_VEHICLE`, the float `4.0f`. -/
def TIME_PER_VEHICLE : Int := 4 * (F32_SCALE : Int)

/-- The address of one of the twelve global lane queues. -/
inductive LaneRef where
  | laneA1 | laneA2 | laneA3
  | laneB1 | laneB2 | laneB3
  | laneC1 | laneC2 | laneC3
  | laneD1 | laneD2 | laneD3
deriving DecidableEq, Repr

/-- The struct `PriorityQueueItem`. -/
structure PriorityQueueItem where
  queue : LaneRef
  priority : Int
  road : Int
  lane : Int
deriving DecidableEq, Repr

/-- The struct `SharedData`, without its mutex and its two `float` fields, which the
scheduling code never reads or writes. -/
structure SharedData where
  currentLight : Int
  nextLight : Int
  high_priority_mode : Int
  priority_cooldown : Int
  emergency_override : Int
  vehicles_processed_this_cycle : Int
deriving DecidableEq, Repr

/-- What the scheduling and the ingestion code print, one constructor for each `printf`
that reports on a vehicle, a lane or the mode. -/
inductive Output where
  | highPriorityActivated (al2_count : Int)
  | highPriorityDeactivated (al2_count : Int)
  | emergencyOverflow (lane : Int) (count : Int)
  | priorityDequeued (vehicle_id : String) (count : Int)
  | normalDequeued (vehicle_id : String) (road : Int) (lane : Int) (count : Int)
  | queueStatus (counts : List Int) (high : Bool) (currentLight : Int)
  | vehicleAdded (vehicle_id : String) (road : Char) (lane : Int)
  | laneFull (road : Char) (lane : Int) (vehicle_id : String)
  | batchProcessed (vehicles_added : Int)
deriving DecidableEq, Repr

/-- The global variables of `simulator.c` together with the `SharedData` of `main`, the
two locals of `processQueues` that live across iterations, and the text printed so far. -/
structure State where
  lanes : LaneRef → Queue
  priorityQueue : Nat → PriorityQueueItem
  sharedData : SharedData
  status_counter : Int
  lastProcessTime : Int
  out : List Output

/-- The lane at a position of the canonical order A1, A2, A3, B1, ..., D3. -/
def laneAt : Nat → LaneRef
  | 0 => LaneRef.laneA1
  | 1 => LaneRef.laneA2
  | 2 => LaneRef.laneA3
  | 3 => LaneRef.laneB1
  | 4 => LaneRef.laneB2
  | 5 => LaneRef.laneB3
  | 6 => LaneRef.laneC1
  | 7 => LaneRef.laneC2
  | 8 => LaneRef.laneC3
  | 9 => LaneRef.laneD1
  | 10 => LaneRef.laneD2
  | _ => LaneRef.laneD3

/-- C function `initializePriorityQueue`. -/
def initializePriorityQueue (s : State) : State :=
  { s with
    priorityQueue := fun i =>
      match i with
      | 0 => { queue := LaneRef.laneA1, priority := 0, road := 0, lane := 1 }
      | 1 => { queue := LaneRef.laneA2, priority := 1, road := 0, lane := 2 }
      | 2 => { queue := LaneRef.laneA3, priority := 0, road := 0, lane := 3 }
      | 3 => { queue := LaneRef.laneB1, priority := 0, road := 1, lane := 1 }
      | 4 => { queue := LaneRef.laneB2, priority := 0, road := 1, lane := 2 }
      | 5 => { queue := LaneRef.laneB3, priority := 0, road := 1, lane := 3 }
      | 6 => { queue := LaneRef.laneC1, priority := 0, road := 2, lane := 1 }
      | 7 => { queue := LaneRef.laneC2, priority := 0, road := 2, lane := 2 }
      | 8 => { queue := LaneRef.laneC3, priority := 0, road := 2, lane := 3 }
      | 9 => { queue := LaneRef.laneD1, priority := 0, road := 3, lane := 1 }
      | 10 => { queue := LaneRef.laneD2, priority := 0, road := 3, lane := 2 }
      | 11 => { queue := LaneRef.laneD3, priority := 0, road := 3, lane := 3 }
      | _ => s.priorityQueue i }

/-! ## simulator.c: the priority engine -/

/-- The first half of `updatePriorityQueue`: the two threshold tests on the count of
`laneA2`, with their notifications. -/
def updatePriorityMode (s : State) : State :=
  let al2_count := get_count (s.lanes LaneRef.laneA2)
  if al2_count > HIGH_PRIORITY_THRESHOLD then
    let s1 :=
      if s.sharedData.high_priority_mode = 0 then
        { s with out := s.out ++ [Output.highPriorityActivated al2_count] }
      else s
    { s1 with
      sharedData :=
        { s1.sharedData with high_priority_mode := 1, priority_cooldown := PRIORITY_COOLDOWN } }
  else if al2_count < NORMAL_PRIORITY_THRESHOLD then
    let s1 :=
      if s.sharedData.high_priority_mode ≠ 0 then
        { s with out := s.out ++ [Output.highPriorityDeactivated al2_count] }
      else s
    { s1 with sharedData := { s1.sharedData with high_priority_mode := 0, priority_cooldown := 0 } }
  else s

/-- The body of the `for` loop of `updatePriorityQueue` at index `i`. -/
def updatePriorityAt (s : State) (i : Nat) : State :=
  let count := get_count (s.lanes (s.priorityQueue i).queue)
  if (s.priorityQueue i).queue = LaneRef.laneA2 ∧ s.sharedData.high_priority_mode ≠ 0 then
    { s with
      priorityQueue :=
        Function.update s.priorityQueue i { s.priorityQueue i with priority := 1000 } }
  else
    { s with
      priorityQueue :=
        Function.update s.priorityQueue i { s.priorityQueue i with priority := count } }

/-- C function `updatePriorityQueue`. -/
def updatePriorityQueue (s : State) : State :=
  (List.range 12).foldl updatePriorityAt (updatePriorityMode s)

/-- The `for` loop of `checkEmergencyOverflow` over the indices still to visit, with the
assignment that follows the loop. -/
def checkEmergencyFrom (s : State) : List Nat → State
  | [] => { s with sharedData := { s.sharedData with emergency_override := 0 } }
  | i :: rest =>
    let count := get_count (s.lanes (s.priorityQueue i).queue)
    if count > EMERGENCY_THRESHOLD then
      { s with
        out := s.out ++ [Output.emergencyOverflow ((i : Int) + 1) count]
        sharedData :=
          { s.sharedData with emergency_override := 1, currentLight := (i : Int) + 1 } }
    else checkEmergencyFrom s rest

/-- C function `checkEmergencyOverflow`. -/
def checkEmergencyOverflow (s : State) : State :=
  checkEmergencyFrom s (List.range 12)

/-- The body of the `for` loop of `getHighestPriorityLane` at index `i`, on the pair
`(maxPriority, selectedLane)`. -/
def highestPriorityAt (s : State) (acc : Int × Int) (i : Nat) : Int × Int :=
  if !is_empty (s.lanes (s.priorityQueue i).queue) then
    if (s.priorityQueue i).priority > acc.1 then
      ((s.priorityQueue i).priority, (i : Int) + 1)
    else acc
  else acc

/-- C function `getHighestPriorityLane`. -/
def getHighestPriorityLane (s : State) : Int :=
  ((List.range 12).foldl (highestPriorityAt s) (-1, 0)).2

/-! ## simulator.c: the scheduler loop -/

/-- C function `printQueueStatus`. -/
def printQueueStatus (s : State) : State :=
  { s with
    out := s.out ++
      [Output.queueStatus ((List.range 12).map fun (i : Nat) => get_count (s.lanes (laneAt i)))
        (decide (s.sharedData.high_priority_mode ≠ 0)) s.sharedData.currentLight] }

/-- The part of the loop body of `processQueues` under `if (currentTime -
lastProcessTime >= TIME_PER_VEHICLE)`. -/
def serveVehicle (currentTime : Int) (s : State) : State :=
  if s.sharedData.high_priority_mode ≠ 0 ∧ ¬ (s.sharedData.emergency_override ≠ 0) then
    if !is_empty (s.lanes LaneRef.laneA2) then
      let v := (dequeue (s.lanes LaneRef.laneA2)).1
      let q := (dequeue (s.lanes LaneRef.laneA2)).2
      { s with
        sharedData := { s.sharedData with currentLight := 2 }
        lanes := Function.update s.lanes LaneRef.laneA2 q
        out := s.out ++ [Output.priorityDequeued v.vehicle_id (get_count q)]
        lastProcessTime := currentTime }
    else
      { s with sharedData := { s.sharedData with currentLight := 0 } }
  else
    let selectedLane := getHighestPriorityLane s
    if selectedLane > 0 then
      let s1 := { s with sharedData := { s.sharedData with currentLight := selectedLane } }
      let item := s.priorityQueue (selectedLane - 1).toNat
      let laneToServe := item.queue
      if !is_empty (s1.lanes laneToServe) then
        let v := (dequeue (s1.lanes laneToServe)).1
        let q := (dequeue (s1.lanes laneToServe)).2
        { s1 with
          lanes := Function.update s1.lanes laneToServe q
          out := s1.out ++
            [Output.normalDequeued v.vehicle_id (65 + item.road) item.lane (get_count q)]
          lastProcessTime := currentTime }
      else s1
    else
      { s with sharedData := { s.sharedData with currentLight := 0 } }

/-- The statement `if (status_counter++ % 25 == 0) printQueueStatus(sharedData);` of the
loop body of `processQueues`. -/
def statusStep (s : State) : State :=
  if Int.tmod s.status_counter 25 = 0 then
    printQueueStatus { s with status_counter := s.status_counter + 1 }
  else { s with status_counter := s.status_counter + 1 }

/-- The loop body of `processQueues` up to the timing test: the status line, then
`updatePriorityQueue`, then `checkEmergencyOverflow`. -/
def tickPrologue (s : State) : State :=
  checkEmergencyOverflow (updatePriorityQueue (statusStep s))

/-- One iteration of the `while (1)` loop of `processQueues`, `ticks` being what
`SDL_GetTicks` returns at its start: `currentTime` is `SDL_GetTicks() / 1000.0f`, and the
test is `currentTime - lastProcessTime >= TIME_PER_VEHICLE` on floats. -/
def processQueuesTick (ticks : Nat) (s : State) : State :=
  if f32Sub (currentTimeOf ticks) (tickPrologue s).lastProcessTime ≥ TIME_PER_VEHICLE then
    serveVehicle (currentTimeOf ticks) (tickPrologue s)
  else tickPrologue s

/-- The table `priorityQueue` points at the twelve lanes in canonical order, as
`initializePriorityQueue` leaves it. -/
def TableOK (s : State) : Prop :=
  ∀ i, i < 12 → (s.priorityQueue i).queue = laneAt i

/-! ## simulator.c: ingestion -/

/-- C library `strtok` with the delimiter `":"`, on the characters from the position the
previous call saved: the token and the position saved for the next call; `none` is the
null pointer.  Leading delimiters are skipped, so empty fields yield no token. -/
def strtok (s : List Char) : Option (List Char × List Char) :=
  match s.dropWhile (fun c => c == ':') with
  | [] => none
  | c :: cs =>
    some ((c :: cs).takeWhile (fun d => d != ':'), ((c :: cs).dropWhile (fun d => d != ':')).drop 1)

/-- C library `isspace` in the C locale. -/
def isspace (c : Char) : Bool :=
  c == ' ' || c == '\t' || c == '\n' || c == '\r' || c == Char.ofNat 11 || c == Char.ofNat 12

/-- The value of the leading decimal digits of a string. -/
def digitsValue (s : List Char) : Int :=
  (s.takeWhile Char.isDigit).foldl (fun (n : Int) (c : Char) => 10 * n + ((c.toNat : Int) - 48)) 0

/-- The number a string denotes for `strtol` in base 10: white space, an optional sign,
then the leading digits; 0 when there is no digit. -/
def signedDigits (s : List Char) : Int :=
  match s.dropWhile isspace with
  | '-' :: ds => - digitsValue ds
  | '+' :: ds => digitsValue ds
  | ds => digitsValue ds

/-- C library `strtol(s, NULL, 10)` with a 64-bit `long`: a value out of range is
replaced by `LONG_MAX` or `LONG_MIN`. -/
def strtol (s : List Char) : Int :=
  if signedDigits s > 2 ^ 63 - 1 then 2 ^ 63 - 1
  else if signedDigits s < -(2 ^ 63) then -(2 ^ 63)
  else signedDigits s

/-- The conversion of a `long` to `int`: the value of the same residue modulo `2^32` in
the range of `int`. -/
def toInt32 (x : Int) : Int := (x + 2 ^ 31) % 2 ^ 32 - 2 ^ 31

/-- C library `atoi`, which is `(int) strtol(s, NULL, 10)`. -/
def atoi (s : List Char) : Int := toInt32 (strtol s)

/-- The `switch (*road)` of `readAndParseFile` with its conditional expressions on
`v.lane`: the address assigned to `target`, `none` for the null pointer it starts as. -/
def targetQueue (road : Char) (lane : Int) : Option LaneRef :=
  if road = 'A' then
    some (if lane = 1 then LaneRef.laneA1 else if lane = 2 then LaneRef.laneA2
      else LaneRef.laneA3)
  else if road = 'B' then
    some (if lane = 1 then LaneRef.laneB1 else if lane = 2 then LaneRef.laneB2
      else LaneRef.laneB3)
  else if road = 'C' then
    some (if lane = 1 then LaneRef.laneC1 else if lane = 2 then LaneRef.laneC2
      else LaneRef.laneC3)
  else if road = 'D' then
    some (if lane = 1 then LaneRef.laneD1 else if lane = 2 then LaneRef.laneD2
      else LaneRef.laneD3)
  else none

/-- The C string left in `line` by `line[strcspn(line, "\n")] = 0`: the bytes in front
of the first newline, or of the first NUL if that comes earlier. -/
def lineText (buf : List Char) : List Char :=
  buf.takeWhile (fun c => c != '\n' && c != Char.ofNat 0)

/-- The parsing part of the body of the `while (fgets ...)` loop of `readAndParseFile`,
on the characters `fgets` put in `line` (at most 99, a character standing for a byte):
the newline is cut off, an empty line is skipped, the three `strtok` calls are made, and
with three tokens the vehicle is built and its target looked up.  `none` when the body
ends before that. -/
def parseLine (buf : List Char) : Option (Vehicle × Option LaneRef) :=
  let line := lineText buf
  if line.length = 0 then none
  else
    match strtok line with
    | none => none
    | some (vehicleNumber, rest1) =>
      match strtok rest1 with
      | none => none
      | some (road, rest2) =>
        match strtok rest2 with
        | none => none
        | some (laneStr, _) =>
          let v : Vehicle :=
            { vehicle_id := String.mk (vehicleNumber.take 8)
              road := road.headD (Char.ofNat 0)
              lane := atoi laneStr }
          some (v, targetQueue v.road v.lane)

/-- The body of the `while (fgets ...)` loop of `readAndParseFile` on one line, on the
state and the local `vehicles_added`. -/
def processLine (buf : List Char) (sv : State × Int) : State × Int :=
  match parseLine buf with
  | none => sv
  | some (_, none) => sv
  | some (v, some target) =>
    if !is_full (sv.1.lanes target) then
      ({ sv.1 with
          lanes := Function.update sv.1.lanes target (enqueue (sv.1.lanes target) v)
          out := sv.1.out ++ [Output.vehicleAdded v.vehicle_id v.road v.lane] },
        sv.2 + 1)
    else if is_full (sv.1.lanes target) then
      ({ sv.1 with out := sv.1.out ++ [Output.laneFull v.road v.lane v.vehicle_id] }, sv.2)
    else sv

/-- The lines the successive calls `fgets(line, sizeof(line), file)` deliver on the rest
of the file, `cur` being what the current call has read so far: a call ends after a
newline, after 99 bytes, or at the end of the file, and the loop ends with the call that
reads nothing. -/
def fileLinesFrom (cur : List Char) : List Char → List (List Char)
  | [] => if cur = [] then [] else [cur]
  | c :: cs =>
    if c = '\n' ∨ cur.length + 1 = 99 then (cur ++ [c]) :: fileLinesFrom [] cs
    else fileLinesFrom (cur ++ [c]) cs

/-- The lines `fgets` delivers on a whole file. -/
def fileLines (file : List Char) : List (List Char) := fileLinesFrom [] file

/-- One pass of the `while (1)` loop of `readAndParseFile` over a file that opened, given
the bytes of the file: the state afterwards and `vehicles_added`.  Emptying the file when
`vehicles_added > 0` is outside the model; its `printf` is kept. -/
def readAndParseFile (file : List Char) (s : State) : State × Int :=
  let r := (fileLines file).foldl (fun sv buf => processLine buf sv) (s, 0)
  if r.2 > 0 then ({ r.1 with out := r.1.out ++ [Output.batchProcessed r.2] }, r.2) else r

/-- A non-empty field of a record: text without a colon, a newline or a NUL. -/
def IsField (f : List Char) : Prop :=
  f ≠ [] ∧ ∀ c, c ∈ f → c ≠ ':' ∧ c ≠ '\n' ∧ c ≠ Char.ofNat 0

/-- Being a field is decidable. -/
instance decidableIsField (f : List Char) : Decidable (IsField f) := by
  unfold IsField
  infer_instance

/-- The end of a line as `fgets` delivers it: a newline, or nothing at the end of a file
without one. -/
def IsLineEnd (eol : List Char) : Prop := eol = [] ∨ eol = ['\n']

/-- Being a line end is decidable. -/
instance decidableIsLineEnd (eol : List Char) : Decidable (IsLineEnd eol) := by
  unfold IsLineEnd
  infer_instance

/-- The road letters that have lanes. -/
def IsRoad (c : Char) : Prop := c = 'A' ∨ c = 'B' ∨ c = 'C' ∨ c = 'D'

/-- Being a road letter is decidable. -/
instance decidableIsRoad (c : Char) : Decidable (IsRoad c) := by
  unfold IsRoad
  infer_instance

/-- The record `id:road:lane` as a line of text. -/
def recordLine (id road laneStr : List Char) : List Char :=
  id ++ ':' :: (road ++ ':' :: laneStr)

/-- The vehicle the specification reads off a record: the id cut to 8 characters, the
first character of the road field, the lane field as an integer. -/
def recordVehicle (id road laneStr : List Char) : Vehicle :=
  { vehicle_id := String.mk (id.take 8), road := road.headD (Char.ofNat 0), lane := atoi laneStr }

/-- The canonical index `3 * (road - 'A') + j` of the specification, `j` being 0 for
lane 1, 1 for lane 2 and 2 for every other lane value. -/
def laneIndex (road : Char) (lane : Int) : Nat :=
  3 * (road.toNat - 65) + (if lane = 1 then 0 else if lane = 2 then 1 else 2)

/-- The non-empty colon-separated fields of a line, as the specification counts them. -/
def fieldsOf (line : List Char) : List (List Char) :=
  (line.splitOnP (fun c => c == ':')).filter (fun f => !f.isEmpty)

/-- The number of non-empty colon-separated fields that start in a text, `inField`
telling whether the text continues a field. -/
def countFields : Bool → List Char → Nat
  | _, [] => 0
  | inField, c :: cs =>
    if c = ':' then countFields false cs
    else (if inField then 0 else 1) + countFields true cs

/-- The file of the batch of the end-to-end scenario. -/
def scenarioBatch : List Char :=
  "ABC12345:A:2\nXYZ98765:B:1\n".toList

/-- A record of 102 bytes with its newline: an id of 97 characters for lane 1 of road
A. -/
def longIdRecord : List Char :=
  recordLine (List.replicate 97 'I') "A".toList "1".toList ++ ['\n']

/-- A record of 106 bytes with its newline: lane 1 of road A written with 100 leading
zeros. -/
def longLaneRecord : List Char :=
  recordLine "X".toList "A".toList (List.replicate 100 '0' ++ "1".toList) ++ ['\n']

/-- A queue in zero-initialised static storage, before `init_queue`. -/
def zeroQueue : Queue :=
  { items := fun _ => { vehicle_id := "", road := Char.ofNat 0, lane := 0 }
    front := 0, rear := 0, count := 0, priority := 0 }

/-- The state `main` hands to the two threads: every lane through `init_queue`, the
table through `initializePriorityQueue`, the shared data all zero.  The argument is the
reading of `SDL_GetTicks` with which `processQueues` starts. -/
def initialState (startTicks : Nat) : State :=
  initializePriorityQueue
    { lanes := fun _ => init_queue zeroQueue
      priorityQueue := fun _ => { queue := LaneRef.laneA1, priority := 0, road := 0, lane := 0 }
      sharedData :=
        { currentLight := 0, nextLight := 0, high_priority_mode := 0, priority_cooldown := 0,
          emergency_override := 0, vehicles_processed_this_cycle := 0 }
      status_counter := 0
      lastProcessTime := currentTimeOf startTicks
      out := [] }

/-- The queue obtained from `q` by enqueueing the vehicles of a list in order. -/
def enqueueAll (q : Queue) (vs : List Vehicle) : Queue := vs.foldl enqueue q

/-- A vehicle of road `road`, lane `lane`, with a plate numbered `n`. -/
def car (road : Char) (lane : Int) (n : Nat) : Vehicle :=
  { vehicle_id := toString n, road := road, lane := lane }

/-- A lane queue holding 200 vehicles. -/
def fullQueue : Queue :=
  { items := fun i => car 'A' 1 i.toNat, front := 0, rear := 199, count := 200, priority := 0 }

/-- A lane queue holding three vehicles, the oldest in slot 199 (the ring has wrapped). -/
def wrappedQueue : Queue :=
  { items := fun i => car 'B' 3 i.toNat, front := 199, rear := 1, count := 3, priority := 0 }

/-- The state in which the lane `laneA2` is the queue `q`, all else as in `s`. -/
def withA2 (s : State) (q : Queue) : State :=
  { s with lanes := Function.update s.lanes LaneRef.laneA2 q }

/-- The priority `updatePriorityQueue` gives the table entry `i`. -/
def newPriority (s : State) (i : Nat) : Int :=
  if (s.priorityQueue i).queue = LaneRef.laneA2 ∧ s.sharedData.high_priority_mode ≠ 0 then 1000
  else get_count (s.lanes (s.priorityQueue i).queue)

/-- The first `n` numbered vehicles of a lane. -/
def cars (road : Char) (lane : Int) (n : Nat) : List Vehicle :=
  (List.range n).map (car road lane)

/-- The road letter of a lane. -/
def roadOf : LaneRef → Char
  | LaneRef.laneA1 | LaneRef.laneA2 | LaneRef.laneA3 => 'A'
  | LaneRef.laneB1 | LaneRef.laneB2 | LaneRef.laneB3 => 'B'
  | LaneRef.laneC1 | LaneRef.laneC2 | LaneRef.laneC3 => 'C'
  | LaneRef.laneD1 | LaneRef.laneD2 | LaneRef.laneD3 => 'D'

/-- The lane number of a lane within its road. -/
def laneNumberOf : LaneRef → Int
  | LaneRef.laneA1 | LaneRef.laneB1 | LaneRef.laneC1 | LaneRef.laneD1 => 1
  | LaneRef.laneA2 | LaneRef.laneB2 | LaneRef.laneC2 | LaneRef.laneD2 => 2
  | LaneRef.laneA3 | LaneRef.laneB3 | LaneRef.laneC3 | LaneRef.laneD3 => 3

/-- The state reached from `initialState 0` once `load r` vehicles were enqueued on each
lane `r`, with the mode flag at `mode`. -/
def loaded (load : LaneRef → Nat) (mode : Int) : State :=
  { initialState 0 with
    lanes := fun r =>
      enqueueAll (init_queue zeroQueue) (cars (roadOf r) (laneNumberOf r) (load r))
    sharedData :=
      { currentLight := 0, nextLight := 0, high_priority_mode := mode, priority_cooldown := 0,
        emergency_override := 0, vehicles_processed_this_cycle := 0 } }

/-- Seven vehicles on `laneA2`, no other. -/
def bandLoad : LaneRef → Nat
  | LaneRef.laneA2 => 7
  | _ => 0

/-- Sixteen vehicles on `laneB2`, seventeen on `laneD1`, three on `laneA1`. -/
def overLoad : LaneRef → Nat
  | LaneRef.laneA1 => 3
  | LaneRef.laneB2 => 16
  | LaneRef.laneD1 => 17
  | _ => 0

/-- Three vehicles on `laneA1` and three on `laneB1`, no other. -/
def tieLoad : LaneRef → Nat
  | LaneRef.laneA1 => 3
  | LaneRef.laneB1 => 3
  | _ => 0

/-- Eleven vehicles on `laneA2` and sixteen on `laneD3`, no other. -/
def precedenceLoad : LaneRef → Nat
  | LaneRef.laneA2 => 11
  | LaneRef.laneD3 => 16
  | _ => 0

/-- Sixteen vehicles on `laneC1` and seventeen on `laneD3`, no other. -/
def laterLoad : LaneRef → Nat
  | LaneRef.laneC1 => 16
  | LaneRef.laneD3 => 17
  | _ => 0

/-- The state after the batch `ABC12345:A:2`, `XYZ98765:B:1` went into the lanes of
`initialState 0`: one vehicle on `laneA2`, one on `laneB1`. -/
def scenarioState : State :=
  { initialState 0 with
    lanes := fun r =>
      match r with
      | LaneRef.laneA2 =>
        enqueue (init_queue zeroQueue) { vehicle_id := "ABC12345", road := 'A', lane := 2 }
      | LaneRef.laneB1 =>
        enqueue (init_queue zeroQueue) { vehicle_id := "XYZ98765", road := 'B', lane := 1 }
      | _ => init_queue zeroQueue }

/-- The representation invariant is a decidable property of a queue. -/
instance decidableQInv (q : Queue) : Decidable (QInv q) := by
  unfold QInv
  infer_instance

/-- The initial state with 200 vehicles on `laneA1`. -/
def fullA1State : State :=
  { initialState 0 with
    lanes := fun r =>
      match r with
      | LaneRef.laneA1 => fullQueue
      | _ => init_queue zeroQueue }

/-! ## Theorems -/

set_option maxRecDepth 100000

/-! ## Lemmas on the ring buffer -/

theorem qinv_init (q : Queue) : QInv (init_queue q) := by
  simp [QInv, init_queue]

theorem qinv_enqueue {q : Queue} (h : QInv q) (v : Vehicle) : QInv (enqueue q v) := by
  obtain ⟨⟨h1, h2⟩, ⟨h3, h4⟩, ⟨h5, h6⟩, h7⟩ := h
  unfold enqueue
  by_cases hf : q.count = 200
  · simp [is_full, MAX_QUEUE_SIZE, hf]
    exact ⟨⟨h1, h2⟩, ⟨h3, h4⟩, ⟨h5, h6⟩, h7⟩
  · have ht : Int.tmod (q.rear + 1) 200 = (q.rear + 1) % 200 :=
      Int.tmod_eq_emod (by omega) (by omega)
    simp only [is_full, MAX_QUEUE_SIZE, hf, enqueueIndex, ht, QInv]
    simp
    omega

theorem qinv_dequeue {q : Queue} (h : QInv q) : QInv (dequeue q).2 := by
  obtain ⟨⟨h1, h2⟩, ⟨h3, h4⟩, ⟨h5, h6⟩, h7⟩ := h
  unfold dequeue
  by_cases he : q.count = 0
  · simp [is_empty, he]
    exact ⟨⟨by omega, by omega⟩, ⟨h3, h4⟩, ⟨h5, h6⟩, by simpa [he] using h7⟩
  · have ht : Int.tmod (q.front + 1) 200 = (q.front + 1) % 200 :=
      Int.tmod_eq_emod (by omega) (by omega)
    simp only [is_empty, MAX_QUEUE_SIZE, he, ht, QInv]
    simp
    omega

theorem qinv_set_priority {q : Queue} (h : QInv q) (p : Int) : QInv (set_priority q p) := h

theorem qinv_of_reachable {q : Queue} (h : QReachable q) : QInv q := by
  induction h with
  | init q => exact qinv_init q
  | enqueue v _ ih => exact qinv_enqueue ih v
  | dequeue _ ih => exact qinv_dequeue ih
  | set_priority p _ ih => exact qinv_set_priority ih p

theorem contents_length (q : Queue) : (contents q).length = q.count.toNat := by
  simp [contents]

theorem contents_init (q : Queue) : contents (init_queue q) = [] := by
  simp [contents, init_queue]

theorem contents_set_priority (q : Queue) (p : Int) :
    contents (set_priority q p) = contents q := rfl

theorem contents_enqueue {q : Queue} (h : QInv q) (hc : q.count ≠ 200) (v : Vehicle) :
    contents (enqueue q v) = contents q ++ [v] := by
  obtain ⟨⟨h1, h2⟩, ⟨h3, h4⟩, ⟨h5, h6⟩, h7⟩ := h
  obtain ⟨n, hn⟩ := Int.eq_ofNat_of_zero_le h1
  have ht : Int.tmod (q.rear + 1) 200 = (q.front + n) % 200 := by
    rw [Int.tmod_eq_emod (by omega) (by omega), h7, hn]
  have e : ((n : Int) + 1).toNat = n + 1 := by omega
  have hc2 : ¬ ((n : Int) = 200) := by omega
  simp only [contents, enqueue, is_full, MAX_QUEUE_SIZE, enqueueIndex, ht, hn, hc2,
    decide_False, Bool.not_false, if_true, e, Int.toNat_ofNat, List.range_succ, List.map_append]
  congr 1
  · apply List.map_congr_left
    intro i hi
    rw [List.mem_range] at hi
    rw [Function.update_noteq]
    omega
  · simp

theorem contents_dequeue {q : Queue} (h : QInv q) (hc : q.count ≠ 0) :
    contents q = (dequeue q).1 :: contents (dequeue q).2 := by
  obtain ⟨⟨h1, h2⟩, ⟨h3, h4⟩, ⟨h5, h6⟩, h7⟩ := h
  obtain ⟨n, hn⟩ := Int.eq_ofNat_of_zero_le h1
  obtain ⟨m, rfl⟩ : ∃ m, n = m + 1 := ⟨n - 1, by omega⟩
  have ht : Int.tmod (q.front + 1) 200 = (q.front + 1) % 200 :=
    Int.tmod_eq_emod (by omega) (by omega)
  have e1 : ((m + 1 : Nat) : Int).toNat = m + 1 := by omega
  have e2 : (((m + 1 : Nat) : Int) - 1).toNat = m := by omega
  have hc2 : ¬ (((m + 1 : Nat) : Int) = 0) := by omega
  simp only [contents, dequeue, is_empty, MAX_QUEUE_SIZE, ht, hn, hc2,
    decide_False, Bool.not_false, if_true, e1, e2]
  rw [List.range_succ_eq_map, List.map_cons, List.map_map]
  congr 1
  · congr 1
    simp
    omega
  · apply List.map_congr_left
    intro i hi
    rw [List.mem_range] at hi
    simp only [Function.comp]
    congr 1
    push_cast
    omega

theorem dequeue_count_zero {q : Queue} (hc : q.count = 0) : dequeue q = (emptyVehicle, q) := by
  simp [dequeue, is_empty, hc]

theorem enqueue_count_full {q : Queue} (hc : q.count = 200) (v : Vehicle) : enqueue q v = q := by
  simp [enqueue, is_full, MAX_QUEUE_SIZE, hc]

/-- The C queue refines the specification's bounded list, call by call. -/
theorem runOps_refines {q : Queue} (h : QInv q) (ops : List QueueOp) :
    (runOps q ops).2 = (fifoRun (contents q) ops).2 ∧
    contents (runOps q ops).1 = (fifoRun (contents q) ops).1 ∧ QInv (runOps q ops).1 := by
  induction ops generalizing q with
  | nil => exact ⟨rfl, rfl, h⟩
  | cons op ops ih =>
    cases op with
    | enq v =>
      have key : contents (enqueue q v) = fifoEnqueue (contents q) v := by
        unfold fifoEnqueue
        rw [contents_length]
        by_cases hc : q.count = 200
        · rw [enqueue_count_full hc, if_neg (by omega)]
        · rw [contents_enqueue h hc, if_pos (by have := h.1.2; omega)]
      have := ih (qinv_enqueue h v)
      rw [key] at this
      exact this
    | deq =>
      have key : fifoDequeue (contents q) = ((dequeue q).1, contents (dequeue q).2) := by
        by_cases hc : q.count = 0
        · have e : contents q = [] := by simp [contents, hc]
          rw [dequeue_count_zero hc, e]
          rfl
        · rw [contents_dequeue h hc]
          rfl
      have := ih (qinv_dequeue h)
      simp only [runOps, fifoRun, key]
      exact ⟨by rw [this.1], this.2.1, this.2.2⟩
    | setPrio p =>
      exact ih (qinv_set_priority h p)

theorem fifoRun_enqs (l vs : List Vehicle) (h : l.length + vs.length ≤ 200)
    (ops : List QueueOp) :
    fifoRun l (vs.map QueueOp.enq ++ ops) = fifoRun (l ++ vs) ops := by
  induction vs generalizing l with
  | nil => simp
  | cons v vs ih =>
    simp only [List.length_cons] at h
    have e : fifoRun l (List.map QueueOp.enq (v :: vs) ++ ops) =
        fifoRun (fifoEnqueue l v) (List.map QueueOp.enq vs ++ ops) := rfl
    rw [e, fifoEnqueue, if_pos (by omega), ih _ (by simp; omega)]
    simp

theorem fifoRun_deqs (vs : List Vehicle) :
    fifoRun vs (List.replicate vs.length QueueOp.deq) = ([], vs) := by
  induction vs with
  | nil => rfl
  | cons v vs ih =>
    simp only [List.length_cons, List.replicate_succ, fifoRun, fifoDequeue, ih]

/-! ## Lemmas on the priority engine -/

theorem updatePriorityAt_eq (s : State) (i : Nat) :
    updatePriorityAt s i =
      { s with
        priorityQueue :=
          Function.update s.priorityQueue i
            { s.priorityQueue i with priority := newPriority s i } } := by
  unfold updatePriorityAt newPriority
  split <;> rfl

theorem newPriority_congr {s t : State} (hl : t.lanes = s.lanes)
    (hd : t.sharedData = s.sharedData) (i : Nat)
    (hq : (t.priorityQueue i).queue = (s.priorityQueue i).queue) :
    newPriority t i = newPriority s i := by
  unfold newPriority
  rw [hl, hd, hq]

/-- What the loop of `updatePriorityQueue` does over any list of indices. -/
theorem foldl_updatePriorityAt (l : List Nat) (s : State) :
    (l.foldl updatePriorityAt s).lanes = s.lanes ∧
    (l.foldl updatePriorityAt s).sharedData = s.sharedData ∧
    (l.foldl updatePriorityAt s).out = s.out ∧
    (l.foldl updatePriorityAt s).status_counter = s.status_counter ∧
    (l.foldl updatePriorityAt s).lastProcessTime = s.lastProcessTime ∧
    ∀ j, ((l.foldl updatePriorityAt s).priorityQueue j).queue = (s.priorityQueue j).queue ∧
      (j ∈ l → ((l.foldl updatePriorityAt s).priorityQueue j).priority = newPriority s j) ∧
      (j ∉ l → (l.foldl updatePriorityAt s).priorityQueue j = s.priorityQueue j) := by
  induction l generalizing s with
  | nil => simp
  | cons i rest ih =>
    obtain ⟨h1, h2, h3, h4, h5, h6⟩ := ih (updatePriorityAt s i)
    have e := updatePriorityAt_eq s i
    simp only [List.foldl_cons]
    rw [h1, h2, h3, h4, h5]
    refine ⟨by rw [e], by rw [e], by rw [e], by rw [e], by rw [e], ?_⟩
    intro j
    obtain ⟨g1, g2, g3⟩ := h6 j
    have hq : ∀ k, ((updatePriorityAt s i).priorityQueue k).queue = (s.priorityQueue k).queue := by
      intro k
      rw [e]
      by_cases hk : k = i
      · subst hk; simp
      · simp [Function.update_noteq hk]
    have hn : newPriority (updatePriorityAt s i) j = newPriority s j :=
      newPriority_congr (by rw [e]) (by rw [e]) j (hq j)
    refine ⟨by rw [g1, hq j], ?_, ?_⟩
    · intro hj
      by_cases hr : j ∈ rest
      · rw [g2 hr, hn]
      · have hji : j = i := by simpa [hr] using hj
        rw [g3 hr, e, hji]
        simp
    · intro hj
      have hr : j ∉ rest := fun h => hj (List.mem_cons_of_mem _ h)
      have hji : j ≠ i := fun h => hj (by simp [h])
      rw [g3 hr, e]
      simp [Function.update_noteq hji]

theorem updatePriorityQueue_lanes (s : State) : (updatePriorityQueue s).lanes = s.lanes := by
  unfold updatePriorityQueue
  rw [(foldl_updatePriorityAt _ _).1]
  unfold updatePriorityMode
  simp only []
  split_ifs <;> rfl

theorem updatePriorityQueue_sharedData (s : State) :
    (updatePriorityQueue s).sharedData = (updatePriorityMode s).sharedData :=
  (foldl_updatePriorityAt _ _).2.1

theorem updatePriorityQueue_out (s : State) :
    (updatePriorityQueue s).out = (updatePriorityMode s).out :=
  (foldl_updatePriorityAt _ _).2.2.1

theorem updatePriorityQueue_lastProcessTime (s : State) :
    (updatePriorityQueue s).lastProcessTime = s.lastProcessTime := by
  unfold updatePriorityQueue
  rw [(foldl_updatePriorityAt _ _).2.2.2.2.1]
  unfold updatePriorityMode
  simp only []
  split_ifs <;> rfl

theorem updatePriorityMode_priorityQueue (s : State) :
    (updatePriorityMode s).priorityQueue = s.priorityQueue := by
  unfold updatePriorityMode
  simp only []
  split_ifs <;> rfl

theorem updatePriorityMode_lanes (s : State) : (updatePriorityMode s).lanes = s.lanes := by
  unfold updatePriorityMode
  simp only []
  split_ifs <;> rfl

theorem updatePriorityQueue_queue (s : State) (j : Nat) :
    ((updatePriorityQueue s).priorityQueue j).queue = (s.priorityQueue j).queue := by
  unfold updatePriorityQueue
  rw [((foldl_updatePriorityAt _ _).2.2.2.2.2 j).1, updatePriorityMode_priorityQueue]

theorem updatePriorityQueue_priority (s : State) (j : Nat) (hj : j < 12) :
    ((updatePriorityQueue s).priorityQueue j).priority =
      if (s.priorityQueue j).queue = LaneRef.laneA2 ∧
          (updatePriorityQueue s).sharedData.high_priority_mode ≠ 0 then 1000
      else (s.lanes (s.priorityQueue j).queue).count := by
  rw [updatePriorityQueue_sharedData]
  unfold updatePriorityQueue
  rw [((foldl_updatePriorityAt _ _).2.2.2.2.2 j).2.1 (List.mem_range.mpr hj)]
  unfold newPriority
  rw [updatePriorityMode_priorityQueue, updatePriorityMode_lanes]
  rfl

theorem foldl_updatePriorityAt_road_lane (l : List Nat) (s : State) (j : Nat) :
    ((l.foldl updatePriorityAt s).priorityQueue j).road = (s.priorityQueue j).road ∧
    ((l.foldl updatePriorityAt s).priorityQueue j).lane = (s.priorityQueue j).lane := by
  induction l generalizing s with
  | nil => exact ⟨rfl, rfl⟩
  | cons i rest ih =>
    simp only [List.foldl_cons]
    rw [(ih (updatePriorityAt s i)).1, (ih (updatePriorityAt s i)).2, updatePriorityAt_eq]
    by_cases hj : j = i
    · subst hj; simp
    · simp [Function.update_noteq hj]

theorem updatePriorityQueue_road_lane (s : State) (j : Nat) :
    ((updatePriorityQueue s).priorityQueue j).road = (s.priorityQueue j).road ∧
    ((updatePriorityQueue s).priorityQueue j).lane = (s.priorityQueue j).lane := by
  unfold updatePriorityQueue
  rw [(foldl_updatePriorityAt_road_lane _ _ j).1, (foldl_updatePriorityAt_road_lane _ _ j).2,
    updatePriorityMode_priorityQueue]
  exact ⟨rfl, rfl⟩

theorem tableOK_updatePriorityQueue {s : State} (h : TableOK s) :
    TableOK (updatePriorityQueue s) := by
  intro i hi
  rw [updatePriorityQueue_queue, h i hi]

theorem tableOK_initializePriorityQueue (s : State) : TableOK (initializePriorityQueue s) := by
  intro i hi
  interval_cases i <;> rfl

theorem laneAt_eq_laneA2 {i : Nat} (hi : i < 12) : laneAt i = LaneRef.laneA2 ↔ i = 1 := by
  interval_cases i <;> simp [laneAt]

/-- The mode and cooldown `updatePriorityMode` leaves, and what it prints. -/
theorem updatePriorityMode_spec (s : State) :
    ((s.lanes LaneRef.laneA2).count > 10 →
      (updatePriorityMode s).sharedData.high_priority_mode = 1 ∧
      (updatePriorityMode s).sharedData.priority_cooldown = 10 ∧
      (updatePriorityMode s).out = s.out ++
        (if s.sharedData.high_priority_mode = 0 then
          [Output.highPriorityActivated (s.lanes LaneRef.laneA2).count] else [])) ∧
    ((s.lanes LaneRef.laneA2).count < 5 →
      (updatePriorityMode s).sharedData.high_priority_mode = 0 ∧
      (updatePriorityMode s).sharedData.priority_cooldown = 0 ∧
      (updatePriorityMode s).out = s.out ++
        (if s.sharedData.high_priority_mode ≠ 0 then
          [Output.highPriorityDeactivated (s.lanes LaneRef.laneA2).count] else [])) ∧
    (5 ≤ (s.lanes LaneRef.laneA2).count → (s.lanes LaneRef.laneA2).count ≤ 10 →
      updatePriorityMode s = s) := by
  unfold updatePriorityMode
  simp only [get_count, HIGH_PRIORITY_THRESHOLD, NORMAL_PRIORITY_THRESHOLD, PRIORITY_COOLDOWN]
  refine ⟨?_, ?_, ?_⟩
  · intro h
    rw [if_pos h]
    split_ifs <;> simp
  · intro h
    rw [if_neg (by omega), if_pos h]
    split_ifs <;> simp
  · intro h1 h2
    rw [if_neg (by omega), if_neg (by omega)]

/-! ## Lemmas on the emergency check -/

theorem range_split {k n : Nat} (h : k < n) :
    List.range n = List.range k ++ k :: List.range' (k + 1) (n - k - 1) := by
  obtain ⟨m, rfl⟩ : ∃ m, n = (m + 1) + k := ⟨n - k - 1, by omega⟩
  have e : (m + 1) + k - k - 1 = m := by omega
  rw [e, List.range_eq_range', List.range_eq_range', ← List.range'_append_1, List.range'_succ]
  simp

theorem checkEmergencyFrom_none (s : State) (l : List Nat)
    (h : ∀ i, i ∈ l → (s.lanes (s.priorityQueue i).queue).count ≤ 15) :
    checkEmergencyFrom s l =
      { s with sharedData := { s.sharedData with emergency_override := 0 } } := by
  induction l with
  | nil => rfl
  | cons i rest ih =>
    have hi := h i (by simp)
    simp only [checkEmergencyFrom, get_count, EMERGENCY_THRESHOLD]
    rw [if_neg (by omega)]
    exact ih (fun j hj => h j (List.mem_cons_of_mem _ hj))

theorem checkEmergencyFrom_first (s : State) (l1 : List Nat) (k : Nat) (l2 : List Nat)
    (h : ∀ i, i ∈ l1 → (s.lanes (s.priorityQueue i).queue).count ≤ 15)
    (hk : (s.lanes (s.priorityQueue k).queue).count > 15) :
    checkEmergencyFrom s (l1 ++ k :: l2) =
      { s with
        out := s.out ++
          [Output.emergencyOverflow ((k : Int) + 1) (s.lanes (s.priorityQueue k).queue).count]
        sharedData :=
          { s.sharedData with emergency_override := 1, currentLight := (k : Int) + 1 } } := by
  induction l1 with
  | nil =>
    simp only [List.nil_append, checkEmergencyFrom, get_count, EMERGENCY_THRESHOLD]
    rw [if_pos hk]
  | cons i rest ih =>
    have hi := h i (by simp)
    simp only [List.cons_append, checkEmergencyFrom, get_count, EMERGENCY_THRESHOLD]
    rw [if_neg (by omega)]
    exact ih (fun j hj => h j (List.mem_cons_of_mem _ hj))

/-- The emergency check when no lane is over the threshold. -/
theorem checkEmergencyOverflow_none {s : State} (ht : TableOK s)
    (h : ∀ i, i < 12 → (s.lanes (laneAt i)).count ≤ 15) :
    checkEmergencyOverflow s =
      { s with sharedData := { s.sharedData with emergency_override := 0 } } := by
  apply checkEmergencyFrom_none
  intro i hi
  rw [List.mem_range] at hi
  rw [ht i hi]
  exact h i hi

/-- The emergency check when lane `k` is the first over the threshold. -/
theorem checkEmergencyOverflow_first {s : State} (ht : TableOK s) {k : Nat} (hk : k < 12)
    (hc : (s.lanes (laneAt k)).count > 15)
    (h : ∀ j, j < k → (s.lanes (laneAt j)).count ≤ 15) :
    checkEmergencyOverflow s =
      { s with
        out := s.out ++ [Output.emergencyOverflow ((k : Int) + 1) (s.lanes (laneAt k)).count]
        sharedData :=
          { s.sharedData with emergency_override := 1, currentLight := (k : Int) + 1 } } := by
  unfold checkEmergencyOverflow
  rw [range_split hk, checkEmergencyFrom_first, ht k hk]
  · intro i hi
    rw [List.mem_range] at hi
    rw [ht i (by omega)]
    exact h i hi
  · rw [ht k hk]
    exact hc

/-- Some lane over the threshold gives a first such lane. -/
theorem exists_first_over (c : Nat → Int) (n : Nat) (h : ∃ i, i < n ∧ c i > 15) :
    ∃ k, k < n ∧ c k > 15 ∧ ∀ j, j < k → c j ≤ 15 := by
  classical
  refine ⟨Nat.find h, (Nat.find_spec h).1, (Nat.find_spec h).2, ?_⟩
  intro j hj
  have := Nat.find_min h hj
  have hjn : j < n := lt_trans hj (Nat.find_spec h).1
  by_contra hc
  exact this ⟨hjn, by omega⟩

/-! ## Lemmas on the lane selection -/

/-- The loop invariant of `getHighestPriorityLane` after the indices below `n`. -/
theorem highestPriority_scan (s : State) (n : Nat) :
    ((List.range n).foldl (highestPriorityAt s) (-1, 0) = (-1, 0) ∧
      ∀ i, i < n → is_empty (s.lanes (s.priorityQueue i).queue) = false →
        (s.priorityQueue i).priority ≤ -1) ∨
    ∃ k : Nat, k < n ∧
      (List.range n).foldl (highestPriorityAt s) (-1, 0) =
        ((s.priorityQueue k).priority, (k : Int) + 1) ∧
      is_empty (s.lanes (s.priorityQueue k).queue) = false ∧
      (s.priorityQueue k).priority > -1 ∧
      (∀ j, j < n → is_empty (s.lanes (s.priorityQueue j).queue) = false →
        (s.priorityQueue j).priority ≤ (s.priorityQueue k).priority) ∧
      (∀ j, j < k → is_empty (s.lanes (s.priorityQueue j).queue) = false →
        (s.priorityQueue j).priority < (s.priorityQueue k).priority) := by
  induction n with
  | zero => exact Or.inl ⟨rfl, fun i hi => absurd hi (Nat.not_lt_zero i)⟩
  | succ n ih =>
    rw [List.range_succ, List.foldl_append, List.foldl_cons, List.foldl_nil]
    by_cases he : is_empty (s.lanes (s.priorityQueue n).queue) = true
    · have step : ∀ acc, highestPriorityAt s acc n = acc := by
        intro acc; simp [highestPriorityAt, he]
      rw [step]
      rcases ih with ⟨e, hall⟩ | ⟨k, hk, e, hne, hpos, hmax, hfirst⟩
      · refine Or.inl ⟨e, fun i hi hne => ?_⟩
        rcases Nat.lt_succ_iff_lt_or_eq.mp hi with h | h
        · exact hall i h hne
        · subst h; rw [he] at hne; exact absurd hne (by decide)
      · refine Or.inr ⟨k, by omega, e, hne, hpos, fun j hj hje => ?_, hfirst⟩
        rcases Nat.lt_succ_iff_lt_or_eq.mp hj with h | h
        · exact hmax j h hje
        · subst h; rw [he] at hje; exact absurd hje (by decide)
    · have hne : is_empty (s.lanes (s.priorityQueue n).queue) = false := by
        simpa using he
      rcases ih with ⟨e, hall⟩ | ⟨k, hk, e, hkne, hpos, hmax, hfirst⟩
      · rw [e]
        by_cases hp : (s.priorityQueue n).priority > -1
        · refine Or.inr ⟨n, by omega, by simp [highestPriorityAt, hne, hp], hne, hp,
            fun j hj hje => ?_, fun j hj hje => ?_⟩
          · rcases Nat.lt_succ_iff_lt_or_eq.mp hj with h | h
            · have := hall j h hje; omega
            · subst h; exact le_refl _
          · have := hall j hj hje; omega
        · refine Or.inl ⟨by simp [highestPriorityAt, hne, hp], fun i hi hie => ?_⟩
          rcases Nat.lt_succ_iff_lt_or_eq.mp hi with h | h
          · exact hall i h hie
          · subst h; omega
      · rw [e]
        by_cases hp : (s.priorityQueue n).priority > (s.priorityQueue k).priority
        · refine Or.inr ⟨n, by omega, by simp [highestPriorityAt, hne, hp], hne, by omega,
            fun j hj hje => ?_, fun j hj hje => ?_⟩
          · rcases Nat.lt_succ_iff_lt_or_eq.mp hj with h | h
            · have := hmax j h hje; omega
            · subst h; exact le_refl _
          · have := hmax j hj hje; omega
        · refine Or.inr ⟨k, by omega, by simp [highestPriorityAt, hne, hp], hkne, hpos,
            fun j hj hje => ?_, hfirst⟩
          rcases Nat.lt_succ_iff_lt_or_eq.mp hj with h | h
          · exact hmax j h hje
          · subst h; omega

/-- The lane `getHighestPriorityLane` returns, with the table in canonical order. -/
theorem getHighestPriorityLane_spec {s : State} (ht : TableOK s) :
    (getHighestPriorityLane s = 0 ∧
      ∀ i, i < 12 → is_empty (s.lanes (laneAt i)) = false →
        (s.priorityQueue i).priority ≤ -1) ∨
    ∃ k : Nat, k < 12 ∧ getHighestPriorityLane s = (k : Int) + 1 ∧
      is_empty (s.lanes (laneAt k)) = false ∧
      (s.priorityQueue k).priority > -1 ∧
      (∀ j, j < 12 → is_empty (s.lanes (laneAt j)) = false →
        (s.priorityQueue j).priority ≤ (s.priorityQueue k).priority) ∧
      (∀ j, j < k → is_empty (s.lanes (laneAt j)) = false →
        (s.priorityQueue j).priority < (s.priorityQueue k).priority) := by
  unfold getHighestPriorityLane
  rcases highestPriority_scan s 12 with ⟨e, hall⟩ | ⟨k, hk, e, hne, hpos, hmax, hfirst⟩
  · refine Or.inl ⟨by rw [e], fun i hi hie => hall i hi ?_⟩
    rw [ht i hi]; exact hie
  · refine Or.inr ⟨k, hk, by rw [e], ?_, hpos, fun j hj hje => hmax j hj ?_,
      fun j hj hje => hfirst j hj ?_⟩
    · rw [← ht k hk]; exact hne
    · rw [ht j hj]; exact hje
    · rw [ht j (by omega)]; exact hje

/-! ## Lemmas on the scheduler loop -/

theorem updatePriorityMode_sharedData_congr {s t : State} (hl : t.lanes = s.lanes)
    (hd : t.sharedData = s.sharedData) :
    (updatePriorityMode t).sharedData = (updatePriorityMode s).sharedData := by
  unfold updatePriorityMode
  simp only [hl, hd]
  split_ifs <;> simp [hd]

theorem statusStep_frame (s : State) :
    (statusStep s).lanes = s.lanes ∧ (statusStep s).sharedData = s.sharedData ∧
    (statusStep s).priorityQueue = s.priorityQueue ∧
    (statusStep s).lastProcessTime = s.lastProcessTime := by
  unfold statusStep printQueueStatus
  split_ifs <;> exact ⟨rfl, rfl, rfl, rfl⟩

theorem checkEmergencyFrom_frame (s : State) (l : List Nat) :
    (checkEmergencyFrom s l).lanes = s.lanes ∧
    (checkEmergencyFrom s l).priorityQueue = s.priorityQueue ∧
    (checkEmergencyFrom s l).sharedData.high_priority_mode = s.sharedData.high_priority_mode ∧
    (checkEmergencyFrom s l).lastProcessTime = s.lastProcessTime := by
  induction l with
  | nil => exact ⟨rfl, rfl, rfl, rfl⟩
  | cons i rest ih =>
    simp only [checkEmergencyFrom]
    split_ifs
    · exact ⟨rfl, rfl, rfl, rfl⟩
    · exact ih

/-- What the loop body has established when it reaches the timing test. -/
theorem tickPrologue_frame (s : State) :
    (tickPrologue s).lanes = s.lanes ∧
    (tickPrologue s).lastProcessTime = s.lastProcessTime ∧
    (tickPrologue s).sharedData.high_priority_mode =
      (updatePriorityQueue s).sharedData.high_priority_mode ∧
    (∀ j, ((tickPrologue s).priorityQueue j).queue = (s.priorityQueue j).queue) ∧
    (∀ j, j < 12 → ((tickPrologue s).priorityQueue j).priority =
      if (s.priorityQueue j).queue = LaneRef.laneA2 ∧
          (updatePriorityQueue s).sharedData.high_priority_mode ≠ 0 then 1000
      else (s.lanes (s.priorityQueue j).queue).count) ∧
    (∀ j, ((tickPrologue s).priorityQueue j).road = (s.priorityQueue j).road) ∧
    (∀ j, ((tickPrologue s).priorityQueue j).lane = (s.priorityQueue j).lane) := by
  obtain ⟨a1, a2, a3, a4⟩ := statusStep_frame s
  obtain ⟨b1, b2, b3, b4⟩ := checkEmergencyFrom_frame (updatePriorityQueue (statusStep s))
    (List.range 12)
  have hm : (updatePriorityQueue (statusStep s)).sharedData =
      (updatePriorityQueue s).sharedData := by
    rw [updatePriorityQueue_sharedData, updatePriorityQueue_sharedData,
      updatePriorityMode_sharedData_congr a1 a2]
  unfold tickPrologue checkEmergencyOverflow
  rw [b1, b2, b3, b4, updatePriorityQueue_lanes, updatePriorityQueue_lastProcessTime, a1, a4, hm]
  refine ⟨rfl, rfl, rfl, fun j => ?_, fun j hj => ?_, fun j => ?_, fun j => ?_⟩
  · rw [updatePriorityQueue_queue, a3]
  · rw [updatePriorityQueue_priority _ j hj, hm, a1, a3]
  · rw [(updatePriorityQueue_road_lane _ j).1, a3]
  · rw [(updatePriorityQueue_road_lane _ j).2, a3]

theorem dequeue_priority (q : Queue) : (dequeue q).2.priority = q.priority := by
  unfold dequeue
  split_ifs <;> rfl

theorem update_dequeue_priority (lanes : LaneRef → Queue) (x r : LaneRef) :
    (Function.update lanes x (dequeue (lanes x)).2 r).priority = (lanes r).priority := by
  by_cases h : r = x
  · subst h; simp [dequeue_priority]
  · simp [Function.update_noteq h]

/-- What `serveVehicle` never touches: the table, the mode flag and the `priority`
field of every lane queue. -/
theorem serveVehicle_frame (t : Int) (s : State) :
    (serveVehicle t s).priorityQueue = s.priorityQueue ∧
    (serveVehicle t s).sharedData.high_priority_mode = s.sharedData.high_priority_mode ∧
    (serveVehicle t s).sharedData.emergency_override = s.sharedData.emergency_override ∧
    ∀ r, ((serveVehicle t s).lanes r).priority = (s.lanes r).priority := by
  unfold serveVehicle
  simp only []
  split_ifs
  · exact ⟨rfl, rfl, rfl, fun r => update_dequeue_priority _ _ r⟩
  · exact ⟨rfl, rfl, rfl, fun _ => rfl⟩
  · exact ⟨rfl, rfl, rfl, fun r => update_dequeue_priority _ _ r⟩
  · exact ⟨rfl, rfl, rfl, fun _ => rfl⟩
  · exact ⟨rfl, rfl, rfl, fun _ => rfl⟩

/-- The high-priority branch of `serveVehicle` when `laneA2` is not empty. -/
theorem serveVehicle_priority (t : Int) {s : State}
    (hb : s.sharedData.high_priority_mode ≠ 0 ∧ ¬ (s.sharedData.emergency_override ≠ 0))
    (hne : is_empty (s.lanes LaneRef.laneA2) = false) :
    serveVehicle t s =
      { s with
        sharedData := { s.sharedData with currentLight := 2 }
        lanes := Function.update s.lanes LaneRef.laneA2 (dequeue (s.lanes LaneRef.laneA2)).2
        out := s.out ++
          [Output.priorityDequeued (dequeue (s.lanes LaneRef.laneA2)).1.vehicle_id
            (get_count (dequeue (s.lanes LaneRef.laneA2)).2)]
        lastProcessTime := t } := by
  unfold serveVehicle
  rw [if_pos hb]
  simp [hne]

theorem serveVehicle_priority_fields (t : Int) {s : State}
    (hb : s.sharedData.high_priority_mode ≠ 0 ∧ ¬ (s.sharedData.emergency_override ≠ 0))
    (hne : is_empty (s.lanes LaneRef.laneA2) = false) :
    (serveVehicle t s).lanes =
      Function.update s.lanes LaneRef.laneA2 (dequeue (s.lanes LaneRef.laneA2)).2 ∧
    (serveVehicle t s).lastProcessTime = t ∧
    (serveVehicle t s).sharedData.currentLight = 2 ∧
    (serveVehicle t s).out = s.out ++
      [Output.priorityDequeued (dequeue (s.lanes LaneRef.laneA2)).1.vehicle_id
        (get_count (dequeue (s.lanes LaneRef.laneA2)).2)] := by
  rw [serveVehicle_priority t hb hne]
  exact ⟨rfl, rfl, rfl, rfl⟩

theorem takeWhile_all {p : Char → Bool} {l : List Char} (h : ∀ c, c ∈ l → p c = true) :
    l.takeWhile p = l := by
  induction l with
  | nil => rfl
  | cons x xs ih =>
    rw [List.takeWhile_cons, h x (by simp), if_pos rfl,
      ih (fun c hc => h c (List.mem_cons_of_mem _ hc))]

theorem dropWhile_all {p : Char → Bool} {l : List Char} (h : ∀ c, c ∈ l → p c = true) :
    l.dropWhile p = [] := by
  induction l with
  | nil => rfl
  | cons x xs ih =>
    rw [List.dropWhile_cons, h x (by simp), if_pos rfl]
    exact ih (fun c hc => h c (List.mem_cons_of_mem _ hc))

theorem takeWhile_stop {p : Char → Bool} {l : List Char} (x : Char) (rest : List Char)
    (h : ∀ c, c ∈ l → p c = true) (hx : p x = false) :
    (l ++ x :: rest).takeWhile p = l := by
  induction l with
  | nil => simp [List.takeWhile_cons, hx]
  | cons y ys ih =>
    rw [List.cons_append, List.takeWhile_cons, h y (by simp), if_pos rfl,
      ih (fun c hc => h c (List.mem_cons_of_mem _ hc))]

theorem dropWhile_stop {p : Char → Bool} {l : List Char} (x : Char) (rest : List Char)
    (h : ∀ c, c ∈ l → p c = true) (hx : p x = false) :
    (l ++ x :: rest).dropWhile p = x :: rest := by
  induction l with
  | nil => simp [List.dropWhile_cons, hx]
  | cons y ys ih =>
    rw [List.cons_append, List.dropWhile_cons, h y (by simp), if_pos rfl]
    exact ih (fun c hc => h c (List.mem_cons_of_mem _ hc))

/-- `strtok` on a non-empty field without a colon, followed by a colon. -/
theorem strtok_field {f : List Char} (rest : List Char) (hne : f ≠ [])
    (h : ∀ c, c ∈ f → c ≠ ':') : strtok (f ++ ':' :: rest) = some (f, rest) := by
  obtain ⟨x, xs, rfl⟩ := List.exists_cons_of_ne_nil hne
  have hx : x ≠ ':' := h x (by simp)
  have hp : ∀ c, c ∈ x :: xs → (fun d : Char => d != ':') c = true := by
    intro c hc
    simpa using h c hc
  unfold strtok
  have e : (x :: xs ++ ':' :: rest).dropWhile (fun c => c == ':') = x :: (xs ++ ':' :: rest) := by
    simp [List.dropWhile_cons, hx]
  rw [e]
  simp only []
  have e2 : x :: (xs ++ ':' :: rest) = (x :: xs) ++ ':' :: rest := rfl
  rw [e2, takeWhile_stop ':' rest hp (by simp), dropWhile_stop ':' rest hp (by simp)]
  rfl

/-- `strtok` on a non-empty field without a colon that ends the string. -/
theorem strtok_last {f : List Char} (hne : f ≠ []) (h : ∀ c, c ∈ f → c ≠ ':') :
    strtok f = some (f, []) := by
  obtain ⟨x, xs, rfl⟩ := List.exists_cons_of_ne_nil hne
  have hx : x ≠ ':' := h x (by simp)
  have hp : ∀ c, c ∈ x :: xs → (fun d : Char => d != ':') c = true := by
    intro c hc
    simpa using h c hc
  unfold strtok
  have e : (x :: xs).dropWhile (fun c => c == ':') = x :: xs := by
    simp [List.dropWhile_cons, hx]
  rw [e]
  simp only []
  rw [takeWhile_all hp, dropWhile_all hp]
  rfl

/-- What `parseLine` makes of a record of three non-empty fields. -/
theorem parseLine_record {id road laneStr eol : List Char}
    (hid : IsField id) (hroad : IsField road) (hlane : IsField laneStr)
    (heol : IsLineEnd eol) :
    parseLine (recordLine id road laneStr ++ eol) =
      some (recordVehicle id road laneStr,
        targetQueue (road.headD (Char.ofNat 0)) (atoi laneStr)) := by
  have hnl : ∀ c, c ∈ recordLine id road laneStr →
      (fun d : Char => d != '\n' && d != Char.ofNat 0) c = true := by
    intro c hc
    simp only [recordLine, List.mem_append, List.mem_cons] at hc
    rcases hc with h | h | h | h | h
    · simpa using (hid.2 c h).2
    · subst h; decide
    · simpa using (hroad.2 c h).2
    · subst h; decide
    · simpa using (hlane.2 c h).2
  have hline : lineText (recordLine id road laneStr ++ eol) = recordLine id road laneStr := by
    unfold lineText
    rcases heol with rfl | rfl
    · rw [List.append_nil, takeWhile_all hnl]
    · exact takeWhile_stop '\n' [] hnl (by decide)
  have hlen : (recordLine id road laneStr).length ≠ 0 := by
    obtain ⟨x, xs, hx⟩ := List.exists_cons_of_ne_nil hid.1
    simp [recordLine, hx]
  have t1 : strtok (recordLine id road laneStr) = some (id, road ++ ':' :: laneStr) :=
    strtok_field _ hid.1 (fun c hc => (hid.2 c hc).1)
  have t2 : strtok (road ++ ':' :: laneStr) = some (road, laneStr) :=
    strtok_field _ hroad.1 (fun c hc => (hroad.2 c hc).1)
  have t3 : strtok laneStr = some (laneStr, []) :=
    strtok_last hlane.1 (fun c hc => (hlane.2 c hc).1)
  unfold parseLine
  simp only [hline, if_neg hlen, t1, t2, t3]
  rfl

/-- The target of a road `A` to `D` is the lane at the canonical index. -/
theorem targetQueue_laneIndex {c : Char} (h : IsRoad c) (lane : Int) :
    targetQueue c lane = some (laneAt (laneIndex c lane)) ∧ laneIndex c lane < 12 := by
  rcases h with rfl | rfl | rfl | rfl <;> by_cases h1 : lane = 1 <;> by_cases h2 : lane = 2 <;>
    simp [targetQueue, laneIndex, laneAt, h1, h2]

theorem targetQueue_other {c : Char} (h : ¬ IsRoad c) (lane : Int) :
    targetQueue c lane = none := by
  unfold IsRoad at h
  push_neg at h
  simp [targetQueue, h.1, h.2.1, h.2.2.1, h.2.2.2]

/-- Splitting at the colons: the first piece and the pieces after the first colon. -/
theorem splitOnP_colon (l : List Char) :
    l.splitOnP (fun c => c == ':') =
      l.takeWhile (fun d => d != ':') ::
        (if l.dropWhile (fun d => d != ':') = [] then []
         else ((l.dropWhile (fun d => d != ':')).drop 1).splitOnP (fun c => c == ':')) := by
  induction l with
  | nil => simp
  | cons x xs ih =>
    rw [List.splitOnP_cons]
    by_cases hx : x = ':'
    · subst hx
      simp [List.takeWhile_cons, List.dropWhile_cons]
    · have h1 : (x == ':') = false := by simpa using hx
      have h2 : (x != ':') = true := by simpa using hx
      rw [h1, ih]
      simp [List.takeWhile_cons, List.dropWhile_cons, h2, List.modifyHead]

theorem fieldsOf_nil : fieldsOf [] = [] := by
  simp [fieldsOf]

theorem fieldsOf_colon (l : List Char) : fieldsOf (':' :: l) = fieldsOf l := by
  unfold fieldsOf
  rw [List.splitOnP_cons]
  simp

/-- The tokens `strtok` delivers are the non-empty fields, one by one. -/
theorem strtok_fieldsOf (l : List Char) :
    (strtok l = none → fieldsOf l = []) ∧
    (∀ tok rest, strtok l = some (tok, rest) → fieldsOf l = tok :: fieldsOf rest) := by
  induction l with
  | nil =>
    refine ⟨fun _ => fieldsOf_nil, fun tok rest h => ?_⟩
    simp [strtok] at h
  | cons x xs ih =>
    by_cases hx : x = ':'
    · subst hx
      have e : strtok (':' :: xs) = strtok xs := by
        simp [strtok, List.dropWhile_cons]
      rw [e, fieldsOf_colon]
      exact ih
    · have h2 : (x != ':') = true := by simpa using hx
      have e : strtok (x :: xs) =
          some ((x :: xs).takeWhile (fun d => d != ':'),
            ((x :: xs).dropWhile (fun d => d != ':')).drop 1) := by
        simp [strtok, List.dropWhile_cons, hx]
      rw [e]
      refine ⟨fun h => by simp at h, fun tok rest h => ?_⟩
      simp only [Option.some.injEq, Prod.mk.injEq] at h
      obtain ⟨rfl, rfl⟩ := h
      have hne : ((x :: xs).takeWhile (fun d => d != ':')).isEmpty = false := by
        simp [List.takeWhile_cons, h2]
      conv_lhs => rw [fieldsOf, splitOnP_colon, List.filter_cons]
      simp only [hne, Bool.not_false, if_true]
      congr 1
      by_cases hd : (x :: xs).dropWhile (fun d => d != ':') = []
      · rw [if_pos hd, hd]
        simp [fieldsOf_nil]
      · rw [if_neg hd]
        rfl

/-- A line with fewer than three non-empty fields is dropped by `parseLine`. -/
theorem parseLine_few_fields (buf : List Char)
    (h : (fieldsOf (lineText buf)).length < 3) :
    parseLine buf = none := by
  unfold parseLine
  simp only []
  split_ifs with h0
  · rfl
  · cases h1 : strtok (lineText buf) with
    | none => rfl
    | some p1 =>
      obtain ⟨tok1, rest1⟩ := p1
      have f1 := (strtok_fieldsOf _).2 tok1 rest1 h1
      cases h2 : strtok rest1 with
      | none => simp only [h2]
      | some p2 =>
        obtain ⟨tok2, rest2⟩ := p2
        have f2 := (strtok_fieldsOf _).2 tok2 rest2 h2
        cases h3 : strtok rest2 with
        | none => simp only [h2, h3]
        | some p3 =>
          obtain ⟨tok3, rest3⟩ := p3
          have f3 := (strtok_fieldsOf _).2 tok3 rest3 h3
          rw [f1, f2, f3] at h
          simp only [List.length_cons] at h
          omega

theorem parseLine_blank (buf : List Char) (h : lineText buf = []) :
    parseLine buf = none := by
  unfold parseLine
  simp [h]

/-- The lanes and the count `processLine` leaves depend on the lanes and the count it
finds only. -/
theorem processLine_congr (buf : List Char) {a b : State × Int}
    (hl : a.1.lanes = b.1.lanes) (hc : a.2 = b.2) :
    (processLine buf a).1.lanes = (processLine buf b).1.lanes ∧
    (processLine buf a).2 = (processLine buf b).2 := by
  unfold processLine
  cases parseLine buf with
  | none => exact ⟨hl, hc⟩
  | some p =>
    obtain ⟨v, tq⟩ := p
    cases tq with
    | none => exact ⟨hl, hc⟩
    | some target =>
      simp only [hl, hc]
      split_ifs
      · exact ⟨rfl, rfl⟩
      · exact ⟨rfl, rfl⟩
      · exact ⟨hl, hc⟩

theorem foldl_processLine_congr (lines : List (List Char)) {a b : State × Int}
    (hl : a.1.lanes = b.1.lanes) (hc : a.2 = b.2) :
    (lines.foldl (fun sv buf => processLine buf sv) a).1.lanes =
      (lines.foldl (fun sv buf => processLine buf sv) b).1.lanes ∧
    (lines.foldl (fun sv buf => processLine buf sv) a).2 =
      (lines.foldl (fun sv buf => processLine buf sv) b).2 := by
  induction lines generalizing a b with
  | nil => exact ⟨hl, hc⟩
  | cons l ls ih =>
    simp only [List.foldl_cons]
    exact ih (processLine_congr l hl hc).1 (processLine_congr l hl hc).2

theorem readAndParseFile_eq (file : List Char) (s : State) :
    (readAndParseFile file s).1.lanes =
      ((fileLines file).foldl (fun sv buf => processLine buf sv) (s, 0)).1.lanes ∧
    (readAndParseFile file s).2 =
      ((fileLines file).foldl (fun sv buf => processLine buf sv) (s, 0)).2 := by
  unfold readAndParseFile
  simp only []
  split_ifs <;> exact ⟨rfl, rfl⟩

theorem processLine_target (buf : List Char) (sv : State × Int) {v : Vehicle}
    {target : LaneRef} (hp : parseLine buf = some (v, some target)) :
    (is_full (sv.1.lanes target) = false →
      (processLine buf sv).1.lanes =
        Function.update sv.1.lanes target (enqueue (sv.1.lanes target) v) ∧
      (processLine buf sv).2 = sv.2 + 1) ∧
    (is_full (sv.1.lanes target) = true →
      (processLine buf sv).1.lanes = sv.1.lanes ∧ (processLine buf sv).2 = sv.2) := by
  unfold processLine
  rw [hp]
  constructor
  · intro hf
    simp only [hf]
    exact ⟨rfl, rfl⟩
  · intro hf
    simp only [hf]
    exact ⟨rfl, rfl⟩

theorem processLine_no_target (buf : List Char) (sv : State × Int)
    (hp : parseLine buf = none ∨ ∃ v, parseLine buf = some (v, none)) :
    processLine buf sv = sv := by
  unfold processLine
  rcases hp with h | ⟨v, h⟩ <;> rw [h]

/-- The three kinds of line that `processLine` passes over. -/
theorem processLine_skip (buf : List Char) (sv : State × Int)
    (h : lineText buf = [] ∨ (fieldsOf (lineText buf)).length < 3 ∨
      ∃ id road laneStr eol : List Char,
        IsField id ∧ IsField road ∧ IsField laneStr ∧ IsLineEnd eol ∧
        buf = recordLine id road laneStr ++ eol ∧ IsRoad (road.headD (Char.ofNat 0)) ∧
        (sv.1.lanes (laneAt (laneIndex (road.headD (Char.ofNat 0)) (atoi laneStr)))).count
          = 200) :
    (processLine buf sv).1.lanes = sv.1.lanes ∧ (processLine buf sv).2 = sv.2 := by
  rcases h with h | h | ⟨id, road, laneStr, eol, hid, hroad, hlane, heol, rfl, hABCD, hfull⟩
  · rw [processLine_no_target _ _ (Or.inl (parseLine_blank buf h))]
    exact ⟨rfl, rfl⟩
  · rw [processLine_no_target _ _ (Or.inl (parseLine_few_fields buf h))]
    exact ⟨rfl, rfl⟩
  · have hp := parseLine_record hid hroad hlane heol
    rw [(targetQueue_laneIndex hABCD (atoi laneStr)).1] at hp
    have hf : is_full (sv.1.lanes
        (laneAt (laneIndex (road.headD (Char.ofNat 0)) (atoi laneStr)))) = true := by
      unfold is_full
      rw [hfull]
      rfl
    exact (processLine_target _ sv hp).2 hf

/-! ### Lines of a file -/

theorem fileLinesFrom_nil (cur : List Char) :
    fileLinesFrom cur [] = if cur = [] then [] else [cur] := rfl

theorem fileLinesFrom_cons (cur : List Char) (c : Char) (cs : List Char) :
    fileLinesFrom cur (c :: cs) =
      if c = '\n' ∨ cur.length + 1 = 99 then (cur ++ [c]) :: fileLinesFrom [] cs
      else fileLinesFrom (cur ++ [c]) cs := rfl

/-- The lines of a file whose first part ends with a newline are those of that part
followed by those of the rest. -/
theorem fileLinesFrom_newline (cur p rest : List Char) :
    fileLinesFrom cur (p ++ '\n' :: rest) =
      fileLinesFrom cur (p ++ ['\n']) ++ fileLinesFrom [] rest := by
  induction p generalizing cur with
  | nil =>
    rw [List.nil_append, List.nil_append, fileLinesFrom_cons, fileLinesFrom_cons,
      if_pos (Or.inl rfl), if_pos (Or.inl rfl), fileLinesFrom_nil, if_pos rfl]
    rfl
  | cons c cs ih =>
    rw [List.cons_append, List.cons_append, fileLinesFrom_cons, fileLinesFrom_cons]
    split_ifs
    · rw [ih, List.cons_append]
    · rw [ih]

theorem fileLines_append {pre : List Char} (hpre : pre = [] ∨ ∃ p, pre = p ++ ['\n'])
    (rest : List Char) : fileLines (pre ++ rest) = fileLines pre ++ fileLines rest := by
  unfold fileLines
  rcases hpre with rfl | ⟨p, rfl⟩
  · rw [List.nil_append, fileLinesFrom_nil, if_pos rfl, List.nil_append]
  · rw [List.append_assoc, List.singleton_append, fileLinesFrom_newline]

/-- A text without newline that fits the buffer is read by one call of `fgets`. -/
theorem fileLinesFrom_text (cur text : List Char) (h : ∀ c, c ∈ text → c ≠ '\n')
    (hlen : cur.length + text.length ≤ 99) :
    fileLinesFrom cur text = if cur ++ text = [] then [] else [cur ++ text] := by
  induction text generalizing cur with
  | nil => rw [fileLinesFrom_nil, List.append_nil]
  | cons c cs ih =>
    have hc : c ≠ '\n' := h c (by simp)
    have hne : cur ++ c :: cs ≠ [] := by simp
    simp only [List.length_cons] at hlen
    rw [fileLinesFrom_cons, if_neg hne]
    by_cases h99 : cur.length + 1 = 99
    · have hcs : cs = [] := List.eq_nil_of_length_eq_zero (by omega)
      subst hcs
      rw [if_pos (Or.inr h99), fileLinesFrom_nil, if_pos rfl]
    · rw [if_neg (by simp [hc, h99]), ih _ (fun d hd => h d (List.mem_cons_of_mem _ hd))
        (by simp only [List.length_append, List.length_singleton]; omega)]
      have e : cur ++ [c] ++ cs = cur ++ c :: cs := by simp
      rw [e, if_neg hne]

/-- A line without inner newline that fits the buffer, newline included, is read by one
call of `fgets`. -/
theorem fileLinesFrom_line (cur text : List Char) (h : ∀ c, c ∈ text → c ≠ '\n')
    (hlen : cur.length + text.length + 1 ≤ 99) :
    fileLinesFrom cur (text ++ ['\n']) = [cur ++ text ++ ['\n']] := by
  induction text generalizing cur with
  | nil =>
    rw [List.nil_append, fileLinesFrom_cons, if_pos (Or.inl rfl), fileLinesFrom_nil, if_pos rfl,
      List.append_nil]
  | cons c cs ih =>
    have hc : c ≠ '\n' := h c (by simp)
    simp only [List.length_cons] at hlen
    rw [List.cons_append, fileLinesFrom_cons, if_neg (by simp only [hc, false_or]; omega),
      ih _ (fun d hd => h d (List.mem_cons_of_mem _ hd))
        (by simp only [List.length_append, List.length_singleton]; omega)]
    simp

/-- A line that fits the buffer is one line for `fgets`. -/
theorem fileLines_short_line {text eol : List Char} (h : ∀ c, c ∈ text → c ≠ '\n')
    (heol : IsLineEnd eol) (hne : text ++ eol ≠ []) (hlen : (text ++ eol).length ≤ 99) :
    fileLines (text ++ eol) = [text ++ eol] := by
  unfold fileLines
  rcases heol with rfl | rfl
  · rw [List.append_nil] at hne hlen ⊢
    have := fileLinesFrom_text [] text h (by simpa using hlen)
    simpa [hne] using this
  · have := fileLinesFrom_line [] text h (by simpa using hlen)
    simpa using this

/-- Where the lines of a line lie among the lines of a file. -/
theorem fileLines_middle {pre : List Char} (hpre : pre = [] ∨ ∃ p, pre = p ++ ['\n'])
    (text eol post : List Char) (heol : eol = ['\n'] ∨ (eol = [] ∧ post = [])) :
    fileLines (pre ++ (text ++ eol) ++ post) =
      fileLines pre ++ fileLines (text ++ eol) ++ fileLines post := by
  rw [List.append_assoc pre, fileLines_append hpre, List.append_assoc (fileLines pre)]
  congr 1
  rcases heol with rfl | ⟨rfl, rfl⟩
  · exact fileLines_append (Or.inr ⟨text, rfl⟩) post
  · have e : fileLines [] = [] := rfl
    rw [List.append_nil, List.append_nil, e, List.append_nil]

/-! ### Counting fields -/

theorem countFields_nil (f : Bool) : countFields f [] = 0 := by
  cases f <;> rfl

theorem countFields_cons (f : Bool) (c : Char) (cs : List Char) :
    countFields f (c :: cs) =
      if c = ':' then countFields false cs else (if f then 0 else 1) + countFields true cs := by
  cases f <;> rfl

theorem countFields_le_succ (l : List Char) : countFields false l ≤ countFields true l + 1 := by
  cases l with
  | nil => rw [countFields_nil, countFields_nil]; omega
  | cons c cs =>
    rw [countFields_cons, countFields_cons]
    split_ifs <;> omega

theorem countFields_prefix (f : Bool) (a b : List Char) :
    countFields f a ≤ countFields f (a ++ b) := by
  induction a generalizing f with
  | nil => rw [countFields_nil]; omega
  | cons c cs ih =>
    rw [List.cons_append, countFields_cons, countFields_cons]
    have h1 := ih false
    have h2 := ih true
    split_ifs <;> omega

theorem countFields_suffix (f : Bool) (a b : List Char) :
    countFields false b ≤ countFields f (a ++ b) + (if f then 1 else 0) := by
  induction a generalizing f with
  | nil =>
    cases f
    · simp
    · simpa using countFields_le_succ b
  | cons c cs ih =>
    rw [List.cons_append, countFields_cons]
    have h1 := ih false
    have h2 := ih true
    simp only [if_true, Bool.false_eq_true, if_false] at h1 h2
    split_ifs <;> omega

/-- The two counts of fields agree. -/
theorem fieldsOf_length (l : List Char) :
    (fieldsOf l).length = countFields false l ∧
    (((l.splitOnP (fun c => c == ':')).tail).filter (fun f => !f.isEmpty)).length =
      countFields true l := by
  induction l with
  | nil => simp [fieldsOf, countFields]
  | cons c cs ih =>
    obtain ⟨i1, i2⟩ := ih
    unfold fieldsOf at i1 ⊢
    rw [List.splitOnP_cons]
    by_cases hc : c = ':'
    · subst hc
      simp only [beq_self_eq_true, if_true, countFields, List.tail_cons]
      refine ⟨?_, i1⟩
      rw [List.filter_cons]
      simpa using i1
    · have h1 : (c == ':') = false := by simpa using hc
      obtain ⟨hd, tl, hs⟩ := List.exists_cons_of_ne_nil (List.splitOnP_ne_nil (fun c => c == ':') cs)
      rw [hs] at i1 i2
      simp only [List.tail_cons] at i2
      simp only [h1, hs, List.modifyHead, countFields, hc, if_false, Bool.false_eq_true,
        List.tail_cons]
      refine ⟨?_, by simpa using i2⟩
      rw [List.filter_cons]
      simp only [List.isEmpty_cons, Bool.not_false, if_true, List.length_cons]
      omega

theorem fieldsOf_prefix (a b : List Char) : (fieldsOf a).length ≤ (fieldsOf (a ++ b)).length := by
  rw [(fieldsOf_length a).1, (fieldsOf_length (a ++ b)).1]
  exact countFields_prefix false a b

theorem fieldsOf_suffix (a b : List Char) : (fieldsOf b).length ≤ (fieldsOf (a ++ b)).length := by
  rw [(fieldsOf_length b).1, (fieldsOf_length (a ++ b)).1]
  simpa using countFields_suffix false a b

theorem lineText_prefix (buf : List Char) : ∃ r, buf = lineText buf ++ r :=
  ⟨buf.dropWhile (fun c => c != '\n' && c != Char.ofNat 0),
    (List.takeWhile_append_dropWhile _ buf).symm⟩

theorem lineText_newline (cur : List Char) : lineText (cur ++ ['\n']) = lineText cur := by
  unfold lineText
  induction cur with
  | nil => simp [List.takeWhile_cons]
  | cons c cs ih =>
    simp only [List.cons_append, List.takeWhile_cons]
    split_ifs
    · rw [ih]
    · rfl

/-- A buffer cut out of a text with fewer than three fields is dropped by `parseLine`. -/
theorem parseLine_piece {a buf b whole : List Char} (hw : whole = a ++ buf ++ b)
    (h : (fieldsOf whole).length < 3) : parseLine buf = none := by
  apply parseLine_few_fields
  obtain ⟨r, hr⟩ := lineText_prefix buf
  have h1 := fieldsOf_prefix (lineText buf) r
  rw [← hr] at h1
  have h2 := fieldsOf_suffix a buf
  have h3 := fieldsOf_prefix (a ++ buf) b
  rw [← hw] at h3
  omega

/-- Every line `fgets` cuts out of a line with fewer than three fields is dropped by
`parseLine`, however long the line is. -/
theorem fileLinesFrom_few_fields (done cur text eol : List Char)
    (heol : IsLineEnd eol) (h : (fieldsOf (done ++ cur ++ text)).length < 3) :
    ∀ buf, buf ∈ fileLinesFrom cur (text ++ eol) → parseLine buf = none := by
  induction text generalizing done cur with
  | nil =>
    intro buf hb
    rw [List.nil_append] at hb
    rw [List.append_nil] at h
    rcases heol with rfl | rfl
    · simp only [fileLinesFrom] at hb
      split_ifs at hb with hcur
      · simp at hb
      · simp only [List.mem_singleton] at hb
        subst hb
        exact parseLine_piece (a := done) (b := []) (by simp) h
    · simp only [fileLinesFrom, true_or, if_true, List.mem_cons, fileLinesFrom, if_true] at hb
      rcases hb with rfl | hb
      · apply parseLine_few_fields
        rw [lineText_newline]
        obtain ⟨r, hr⟩ := lineText_prefix cur
        have h1 := fieldsOf_prefix (lineText cur) r
        rw [← hr] at h1
        have h2 := fieldsOf_suffix done cur
        omega
      · simp at hb
  | cons c cs ih =>
    intro buf hb
    simp only [List.cons_append, fileLinesFrom] at hb
    split_ifs at hb with hcond
    · simp only [List.mem_cons] at hb
      rcases hb with rfl | hb
      · exact parseLine_piece (a := done) (b := cs) (by simp) h
      · exact ih (done ++ cur ++ [c]) [] (by simpa using h) buf hb
    · exact ih done (cur ++ [c]) (by simpa using h) buf hb

/-- Lines `parseLine` drops leave the state and the count as they are. -/
theorem foldl_processLine_none (lines : List (List Char))
    (h : ∀ buf, buf ∈ lines → parseLine buf = none) (sv : State × Int) :
    lines.foldl (fun st buf => processLine buf st) sv = sv := by
  induction lines generalizing sv with
  | nil => rfl
  | cons l ls ih =>
    rw [List.foldl_cons, processLine_no_target _ _ (Or.inl (h l (by simp)))]
    exact ih (fun b hb => h b (List.mem_cons_of_mem _ hb)) sv

/-- If the lines of a line leave lanes and count alone, the file ends as without it. -/
theorem readAndParseFile_skip (s : State) {pre : List Char}
    (hpre : pre = [] ∨ ∃ p, pre = p ++ ['\n']) (text eol post : List Char)
    (heol : eol = ['\n'] ∨ (eol = [] ∧ post = []))
    (h : ((fileLines (text ++ eol)).foldl (fun sv b => processLine b sv)
          ((fileLines pre).foldl (fun sv b => processLine b sv) (s, 0))).1.lanes =
        ((fileLines pre).foldl (fun sv b => processLine b sv) (s, 0)).1.lanes ∧
      ((fileLines (text ++ eol)).foldl (fun sv b => processLine b sv)
          ((fileLines pre).foldl (fun sv b => processLine b sv) (s, 0))).2 =
        ((fileLines pre).foldl (fun sv b => processLine b sv) (s, 0)).2) :
    (readAndParseFile (pre ++ (text ++ eol) ++ post) s).1.lanes =
      (readAndParseFile (pre ++ post) s).1.lanes ∧
    (readAndParseFile (pre ++ (text ++ eol) ++ post) s).2 =
      (readAndParseFile (pre ++ post) s).2 := by
  rw [(readAndParseFile_eq _ _).1, (readAndParseFile_eq _ _).1, (readAndParseFile_eq _ _).2,
    (readAndParseFile_eq _ _).2, fileLines_middle hpre text eol post heol,
    fileLines_append hpre, List.foldl_append, List.foldl_append, List.foldl_append]
  exact foldl_processLine_congr (fileLines post) h.1 h.2

/-- The state of the end-to-end scenario is what ingesting its batch leaves. -/
theorem scenarioState_ingested (r : LaneRef) :
    contents ((readAndParseFile scenarioBatch (initialState 0)).1.lanes r) =
      contents (scenarioState.lanes r) := by
  cases r <;> decide

/-! ## The lane queue: claims C1 to C4 -/

/-- C1: started from `init_queue` (whatever the slots held before), any interleaved
sequence of `enqueue`, `dequeue` (and `set_priority`) calls behaves as the list bounded at
200: the calls to `dequeue` return what the list model returns, call for call, and the
ring buffer finally holds the model's list; sequences with more than 200 enqueues, on
which the indices wrap, are included.  In particular enqueueing `n ≤ 200` vehicles and
then dequeueing `n` times returns exactly those vehicles in order. -/
theorem C1_fifo_order (q0 : Queue) :
    (∀ ops : List QueueOp,
      (runOps (init_queue q0) ops).2 = (fifoRun [] ops).2 ∧
      contents (runOps (init_queue q0) ops).1 = (fifoRun [] ops).1) ∧
    (∀ vs : List Vehicle, vs.length ≤ 200 →
      (runOps (init_queue q0)
        (vs.map QueueOp.enq ++ List.replicate vs.length QueueOp.deq)).2 = vs) := by
  have key : ∀ ops : List QueueOp,
      (runOps (init_queue q0) ops).2 = (fifoRun [] ops).2 ∧
      contents (runOps (init_queue q0) ops).1 = (fifoRun [] ops).1 := by
    intro ops
    have h := runOps_refines (qinv_init q0) ops
    rw [contents_init] at h
    exact ⟨h.1, h.2.1⟩
  refine ⟨key, ?_⟩
  intro vs hvs
  rw [(key _).1, fifoRun_enqs [] vs (by simpa using hvs), List.nil_append, fifoRun_deqs]

/-- Witness of C1: two vehicles enqueued into a fresh queue come back in order. -/
theorem C1_fifo_order_witness :
    [car 'A' 1 7, car 'B' 2 8].length ≤ 200 ∧
    (runOps (init_queue zeroQueue)
      ([car 'A' 1 7, car 'B' 2 8].map QueueOp.enq ++
        List.replicate [car 'A' 1 7, car 'B' 2 8].length QueueOp.deq)).2 =
      [car 'A' 1 7, car 'B' 2 8] :=
  ⟨by decide, (C1_fifo_order zeroQueue).2 [car 'A' 1 7, car 'B' 2 8] (by decide)⟩

/-- C2: on a queue whose count is 200, `enqueue` of any vehicle changes nothing: the
count stays 200, and `front`, `rear`, `priority` and every slot of `items` are as before;
`is_full` is true before and after. -/
theorem C2_enqueue_full_noop (q : Queue) (v : Vehicle) (h : q.count = MAX_QUEUE_SIZE) :
    enqueue q v = q ∧ (enqueue q v).count = 200 ∧ (enqueue q v).front = q.front ∧
    (enqueue q v).rear = q.rear ∧ (enqueue q v).priority = q.priority ∧
    (enqueue q v).items = q.items ∧ is_full q = true ∧ is_full (enqueue q v) = true := by
  have hc : q.count = 200 := h
  have e : enqueue q v = q := enqueue_count_full hc v
  rw [e]
  exact ⟨rfl, hc, rfl, rfl, rfl, rfl, by simp [is_full, h], by simp [is_full, h]⟩

/-- Witness of C2: a queue of 200 vehicles refuses one more. -/
theorem C2_enqueue_full_noop_witness :
    fullQueue.count = MAX_QUEUE_SIZE ∧ enqueue fullQueue (car 'A' 1 200) = fullQueue ∧
    is_full (enqueue fullQueue (car 'A' 1 200)) = true :=
  ⟨by decide, (C2_enqueue_full_noop fullQueue (car 'A' 1 200) (by decide)).1,
    (C2_enqueue_full_noop fullQueue (car 'A' 1 200) (by decide)).2.2.2.2.2.2.2⟩

/-- C3: on a queue whose count is 0, `dequeue` returns the sentinel `{"", ' ', 0}` and
leaves the queue as it was; on a queue whose count is positive it returns the slot at
index `front`, sets `front` to `(front + 1) % 200` (the C remainder, which is the
mathematical one as soon as `front ≥ 0`), lowers `count` by exactly 1 and leaves `rear`,
`priority` and the slots alone. -/
theorem C3_dequeue (q : Queue) :
    (q.count = 0 →
      (dequeue q).1 = { vehicle_id := "", road := ' ', lane := 0 } ∧ (dequeue q).2 = q) ∧
    (q.count > 0 →
      (dequeue q).1 = q.items q.front ∧
      (dequeue q).2.front = Int.tmod (q.front + 1) 200 ∧
      (0 ≤ q.front → (dequeue q).2.front = (q.front + 1) % 200) ∧
      (dequeue q).2.count = q.count - 1 ∧
      (dequeue q).2.rear = q.rear ∧ (dequeue q).2.priority = q.priority ∧
      (dequeue q).2.items = q.items) := by
  constructor
  · intro h
    rw [dequeue_count_zero h]
    exact ⟨rfl, rfl⟩
  · intro h
    have hne : ¬ q.count = 0 := by omega
    have e : dequeue q =
        (q.items q.front, { q with front := Int.tmod (q.front + 1) 200, count := q.count - 1 }) := by
      simp [dequeue, is_empty, hne, MAX_QUEUE_SIZE]
    rw [e]
    exact ⟨rfl, rfl, fun hf => Int.tmod_eq_emod (by omega) (by omega), rfl, rfl, rfl, rfl⟩

/-- Witness of C3: an empty queue yields the sentinel, and a queue whose head is in the
last slot yields that slot and wraps `front` to 0. -/
theorem C3_dequeue_witness :
    (init_queue zeroQueue).count = 0 ∧
    (dequeue (init_queue zeroQueue)).2 = init_queue zeroQueue ∧
    wrappedQueue.count > 0 ∧ (dequeue wrappedQueue).1 = car 'B' 3 199 ∧
    (dequeue wrappedQueue).2.front = 0 ∧ (dequeue wrappedQueue).2.count = 2 :=
  ⟨by decide, ((C3_dequeue (init_queue zeroQueue)).1 (by decide)).2,
    by decide, ((C3_dequeue wrappedQueue).2 (by decide)).1,
    ((C3_dequeue wrappedQueue).2 (by decide)).2.1,
    ((C3_dequeue wrappedQueue).2 (by decide)).2.2.2.1⟩

/-- C4: every queue state reachable from `init_queue` by `enqueue`, `dequeue` and
`set_priority` calls satisfies `0 ≤ count ≤ 200`, `0 ≤ front < 200`, `-1 ≤ rear < 200` and
`(rear + 1) mod 200 = (front + count) mod 200`; `is_empty` holds exactly when the count is
0 and `is_full` exactly when it is 200; the slot `enqueue` writes (when the queue is not
full) and the slot `dequeue` reads (when it is not empty) have an index in `0..199`. -/
theorem C4_representation_invariant (q : Queue) (h : QReachable q) :
    (0 ≤ q.count ∧ q.count ≤ 200) ∧ (0 ≤ q.front ∧ q.front < 200) ∧
    (-1 ≤ q.rear ∧ q.rear < 200) ∧ (q.rear + 1) % 200 = (q.front + q.count) % 200 ∧
    (is_empty q = true ↔ q.count = 0) ∧ (is_full q = true ↔ q.count = 200) ∧
    (is_full q = false → 0 ≤ enqueueIndex q ∧ enqueueIndex q < 200 ∧
      ∀ v, (enqueue q v).items = Function.update q.items (enqueueIndex q) v) ∧
    (is_empty q = false → (0 ≤ q.front ∧ q.front < 200) ∧
      (dequeue q).1 = q.items q.front) := by
  obtain ⟨⟨h1, h2⟩, ⟨h3, h4⟩, ⟨h5, h6⟩, h7⟩ := qinv_of_reachable h
  refine ⟨⟨h1, h2⟩, ⟨h3, h4⟩, ⟨h5, h6⟩, h7, by simp [is_empty], by simp [is_full, MAX_QUEUE_SIZE],
    ?_, fun he => ⟨⟨h3, h4⟩, by simp [dequeue, he]⟩⟩
  intro hf
  have ht : Int.tmod (q.rear + 1) 200 = (q.rear + 1) % 200 :=
    Int.tmod_eq_emod (by omega) (by omega)
  refine ⟨?_, ?_, ?_⟩
  · simp only [enqueueIndex, MAX_QUEUE_SIZE, ht]; omega
  · simp only [enqueueIndex, MAX_QUEUE_SIZE, ht]; omega
  · intro v
    simp [enqueue, hf]

/-- Witness of C4: the queue reached by two enqueues and a dequeue from `init_queue`. -/
theorem C4_representation_invariant_witness :
    (0 ≤ (dequeue (enqueue (enqueue (init_queue zeroQueue) (car 'A' 1 1)) (car 'A' 1 2))).2.count ∧
      (dequeue (enqueue (enqueue (init_queue zeroQueue) (car 'A' 1 1)) (car 'A' 1 2))).2.count
        ≤ 200) :=
  (C4_representation_invariant _
    (QReachable.dequeue (QReachable.enqueue _ (QReachable.enqueue _
      (QReachable.init zeroQueue))))).1

/-! ## The priority engine: claims C5 and C6 -/

/-- C5: with `n` the count of A2, `updatePriorityQueue` sets (mode, cooldown) to (1, 10)
if `n > 10`, to (0, 0) if `n < 5`, and leaves both as they were if `5 ≤ n ≤ 10`, whatever
they were; it prints the activation line exactly when the mode goes from 0 to 1, the
deactivation line exactly when it goes from on (non-zero, the flag's value 1) to 0, and
nothing otherwise.  Hence with the count of A2 in `[5, 10]` the mode is the same after
any number of updates, and the counts 0, 11, 11, 4 from mode 0 give the modes 0, 1, 1, 0
with one activation at the second update and one deactivation at the fourth. -/
theorem C5_priority_mode (s : State) :
    ((s.lanes LaneRef.laneA2).count > 10 →
      (updatePriorityQueue s).sharedData.high_priority_mode = 1 ∧
      (updatePriorityQueue s).sharedData.priority_cooldown = 10) ∧
    ((s.lanes LaneRef.laneA2).count < 5 →
      (updatePriorityQueue s).sharedData.high_priority_mode = 0 ∧
      (updatePriorityQueue s).sharedData.priority_cooldown = 0) ∧
    (5 ≤ (s.lanes LaneRef.laneA2).count → (s.lanes LaneRef.laneA2).count ≤ 10 →
      (updatePriorityQueue s).sharedData.high_priority_mode = s.sharedData.high_priority_mode ∧
      (updatePriorityQueue s).sharedData.priority_cooldown = s.sharedData.priority_cooldown) ∧
    (updatePriorityQueue s).out = s.out ++
      (if s.sharedData.high_priority_mode = 0 ∧
          (updatePriorityQueue s).sharedData.high_priority_mode = 1 then
        [Output.highPriorityActivated (s.lanes LaneRef.laneA2).count]
      else if s.sharedData.high_priority_mode ≠ 0 ∧
          (updatePriorityQueue s).sharedData.high_priority_mode = 0 then
        [Output.highPriorityDeactivated (s.lanes LaneRef.laneA2).count]
      else []) ∧
    (∀ k : Nat, 5 ≤ (s.lanes LaneRef.laneA2).count → (s.lanes LaneRef.laneA2).count ≤ 10 →
      (updatePriorityQueue^[k] s).sharedData.high_priority_mode =
        s.sharedData.high_priority_mode) ∧
    (∀ q1 q2 q3 q4 : Queue, s.sharedData.high_priority_mode = 0 →
      q1.count = 0 → q2.count = 11 → q3.count = 11 → q4.count = 4 →
      (updatePriorityQueue (withA2 s q1)).sharedData.high_priority_mode = 0 ∧
      (updatePriorityQueue (withA2 s q1)).out = s.out ∧
      (updatePriorityQueue (withA2 (updatePriorityQueue (withA2 s q1)) q2)).sharedData.high_priority_mode
        = 1 ∧
      (updatePriorityQueue (withA2 (updatePriorityQueue (withA2 s q1)) q2)).out =
        s.out ++ [Output.highPriorityActivated 11] ∧
      (updatePriorityQueue (withA2 (updatePriorityQueue
        (withA2 (updatePriorityQueue (withA2 s q1)) q2)) q3)).sharedData.high_priority_mode = 1 ∧
      (updatePriorityQueue (withA2 (updatePriorityQueue
        (withA2 (updatePriorityQueue (withA2 s q1)) q2)) q3)).out =
        s.out ++ [Output.highPriorityActivated 11] ∧
      (updatePriorityQueue (withA2 (updatePriorityQueue (withA2 (updatePriorityQueue
        (withA2 (updatePriorityQueue (withA2 s q1)) q2)) q3)) q4)).sharedData.high_priority_mode
        = 0 ∧
      (updatePriorityQueue (withA2 (updatePriorityQueue (withA2 (updatePriorityQueue
        (withA2 (updatePriorityQueue (withA2 s q1)) q2)) q3)) q4)).out =
        s.out ++ [Output.highPriorityActivated 11, Output.highPriorityDeactivated 4]) := by
  have step : ∀ t : State,
      ((t.lanes LaneRef.laneA2).count > 10 →
        (updatePriorityQueue t).sharedData.high_priority_mode = 1 ∧
        (updatePriorityQueue t).sharedData.priority_cooldown = 10 ∧
        (updatePriorityQueue t).out = t.out ++
          (if t.sharedData.high_priority_mode = 0 then
            [Output.highPriorityActivated (t.lanes LaneRef.laneA2).count] else [])) ∧
      ((t.lanes LaneRef.laneA2).count < 5 →
        (updatePriorityQueue t).sharedData.high_priority_mode = 0 ∧
        (updatePriorityQueue t).sharedData.priority_cooldown = 0 ∧
        (updatePriorityQueue t).out = t.out ++
          (if t.sharedData.high_priority_mode ≠ 0 then
            [Output.highPriorityDeactivated (t.lanes LaneRef.laneA2).count] else [])) ∧
      (5 ≤ (t.lanes LaneRef.laneA2).count → (t.lanes LaneRef.laneA2).count ≤ 10 →
        (updatePriorityQueue t).sharedData = t.sharedData ∧
        (updatePriorityQueue t).out = t.out) := by
    intro t
    rw [updatePriorityQueue_sharedData, updatePriorityQueue_out]
    obtain ⟨a, b, c⟩ := updatePriorityMode_spec t
    exact ⟨a, b, fun h1 h2 => by rw [c h1 h2]; exact ⟨rfl, rfl⟩⟩
  obtain ⟨hi, lo, band⟩ := step s
  refine ⟨fun h => ⟨(hi h).1, (hi h).2.1⟩, fun h => ⟨(lo h).1, (lo h).2.1⟩,
    fun h1 h2 => by rw [(band h1 h2).1]; exact ⟨rfl, rfl⟩, ?_, ?_, ?_⟩
  · rcases lt_trichotomy (s.lanes LaneRef.laneA2).count 5 with h | h | h
    · obtain ⟨m, -, o⟩ := lo h
      rw [o, m]
      by_cases hm : s.sharedData.high_priority_mode = 0 <;> simp [hm]
    · obtain ⟨m, o⟩ := band (by omega) (by omega)
      rw [o, m]
      by_cases hm : s.sharedData.high_priority_mode = 0
      · simp [hm]
      · simp [hm]
    · by_cases h10 : (s.lanes LaneRef.laneA2).count ≤ 10
      · obtain ⟨m, o⟩ := band (by omega) h10
        rw [o, m]
        by_cases hm : s.sharedData.high_priority_mode = 0
        · simp [hm]
        · simp [hm]
      · obtain ⟨m, -, o⟩ := hi (by omega)
        rw [o, m]
        by_cases hm : s.sharedData.high_priority_mode = 0 <;> simp [hm]
  · intro k h1 h2
    have inv : (updatePriorityQueue^[k] s).lanes = s.lanes ∧
        (updatePriorityQueue^[k] s).sharedData = s.sharedData := by
      induction k with
      | zero => exact ⟨rfl, rfl⟩
      | succ k ih =>
        rw [Function.iterate_succ_apply', updatePriorityQueue_lanes]
        refine ⟨ih.1, ?_⟩
        rw [((step _).2.2 (by rw [ih.1]; exact h1) (by rw [ih.1]; exact h2)).1, ih.2]
    rw [inv.2]
  · intro q1 q2 q3 q4 hm c1 c2 c3 c4
    have l : ∀ (t : State) (q : Queue), ((withA2 t q).lanes LaneRef.laneA2).count = q.count := by
      intro t q; simp [withA2]
    have d : ∀ (t : State) (q : Queue), (withA2 t q).sharedData = t.sharedData := fun _ _ => rfl
    have o : ∀ (t : State) (q : Queue), (withA2 t q).out = t.out := fun _ _ => rfl
    obtain ⟨m1, -, o1⟩ := (step (withA2 s q1)).2.1 (by rw [l]; omega)
    simp only [d, o, l, hm, c1] at o1
    simp at o1
    obtain ⟨m2, -, o2⟩ := (step (withA2 (updatePriorityQueue (withA2 s q1)) q2)).1 (by rw [l]; omega)
    simp only [d, o, l, m1, o1, c2] at o2
    simp at o2
    obtain ⟨m3, -, o3⟩ := (step (withA2 (updatePriorityQueue
      (withA2 (updatePriorityQueue (withA2 s q1)) q2)) q3)).1 (by rw [l]; omega)
    simp only [d, o, l, m2, o2, c3] at o3
    simp at o3
    obtain ⟨m4, -, o4⟩ := (step (withA2 (updatePriorityQueue (withA2 (updatePriorityQueue
      (withA2 (updatePriorityQueue (withA2 s q1)) q2)) q3)) q4)).2.1 (by rw [l]; omega)
    simp only [d, o, l, m3, o3, c4] at o4
    simp at o4
    exact ⟨m1, o1, m2, o2, m3, o3, m4, o4⟩

/-- Witness of C5: seven vehicles on A2 and the mode on, three updates leave it on; and
from the initial state, A2 holding 0, 11, 11 and 4 vehicles at four successive updates
ends with the mode off and the two notifications printed. -/
theorem C5_priority_mode_witness :
    (5 ≤ ((loaded bandLoad 1).lanes LaneRef.laneA2).count ∧
      ((loaded bandLoad 1).lanes LaneRef.laneA2).count ≤ 10 ∧
      (updatePriorityQueue^[3] (loaded bandLoad 1)).sharedData.high_priority_mode = 1) ∧
    ((initialState 0).sharedData.high_priority_mode = 0 ∧
      (enqueueAll (init_queue zeroQueue) (cars 'A' 2 11)).count = 11 ∧
      (enqueueAll (init_queue zeroQueue) (cars 'A' 2 4)).count = 4 ∧
      (updatePriorityQueue (withA2 (updatePriorityQueue (withA2 (updatePriorityQueue
        (withA2 (updatePriorityQueue (withA2 (initialState 0) (init_queue zeroQueue)))
          (enqueueAll (init_queue zeroQueue) (cars 'A' 2 11))))
          (enqueueAll (init_queue zeroQueue) (cars 'A' 2 11))))
          (enqueueAll (init_queue zeroQueue) (cars 'A' 2 4)))).out =
        (initialState 0).out ++
          [Output.highPriorityActivated 11, Output.highPriorityDeactivated 4]) :=
  ⟨⟨by decide, by decide,
      (C5_priority_mode (loaded bandLoad 1)).2.2.2.2.1 3 (by decide) (by decide)⟩,
    by decide, by decide, by decide,
    ((C5_priority_mode (initialState 0)).2.2.2.2.2 (init_queue zeroQueue)
      (enqueueAll (init_queue zeroQueue) (cars 'A' 2 11))
      (enqueueAll (init_queue zeroQueue) (cars 'A' 2 11))
      (enqueueAll (init_queue zeroQueue) (cars 'A' 2 4))
      (by decide) (by decide) (by decide) (by decide) (by decide)).2.2.2.2.2.2.2⟩

/-- C6: after `updatePriorityQueue`, with the table as `initializePriorityQueue` set it
up, the score `priorityQueue[i].priority` of every lane index `i` in `0..11` is 1000 if
`i` is 1 (A2) and the mode, as the same call left it, is on, and is the count of lane `i`
otherwise; the call changes no lane queue. -/
theorem C6_priority_scores (s : State) (h : TableOK s) :
    (∀ i, i < 12 →
      ((updatePriorityQueue s).priorityQueue i).priority =
        if i = 1 ∧ (updatePriorityQueue s).sharedData.high_priority_mode ≠ 0 then 1000
        else get_count ((updatePriorityQueue s).lanes (laneAt i))) ∧
    (updatePriorityQueue s).lanes = s.lanes := by
  refine ⟨?_, updatePriorityQueue_lanes s⟩
  intro i hi
  rw [updatePriorityQueue_priority s i hi, updatePriorityQueue_lanes, h i hi]
  simp only [laneAt_eq_laneA2 hi, get_count]

/-- Witness of C6: the scores of the state with seven vehicles on A2 and the mode on. -/
theorem C6_priority_scores_witness :
    TableOK (loaded bandLoad 1) ∧
    ((updatePriorityQueue (loaded bandLoad 1)).priorityQueue 1).priority = 1000 ∧
    ((updatePriorityQueue (loaded bandLoad 1)).priorityQueue 4).priority = 0 :=
  ⟨tableOK_initializePriorityQueue _,
    by simpa using (C6_priority_scores (loaded bandLoad 1)
      (tableOK_initializePriorityQueue _)).1 1 (by decide),
    by simpa using (C6_priority_scores (loaded bandLoad 1)
      (tableOK_initializePriorityQueue _)).1 4 (by decide)⟩

/-! ## The emergency check: claim C7 -/

/-- C7: with the table as `initializePriorityQueue` set it up, `checkEmergencyOverflow`
leaves `emergency_override` at 1 exactly when some lane holds more than 15 vehicles, and
at 0 otherwise; when `k` is the first lane in canonical order over 15, `currentLight`
becomes `k + 1`, whatever the lanes after `k` hold; when no lane is over 15,
`currentLight` is as before.  The call changes no lane queue, no priority score and not
`high_priority_mode`. -/
theorem C7_emergency_overflow (s : State) (h : TableOK s) :
    ((checkEmergencyOverflow s).sharedData.emergency_override = 1 ↔
      ∃ i, i < 12 ∧ (s.lanes (laneAt i)).count > 15) ∧
    (∀ k, k < 12 → (s.lanes (laneAt k)).count > 15 →
      (∀ j, j < k → (s.lanes (laneAt j)).count ≤ 15) →
      (checkEmergencyOverflow s).sharedData.emergency_override = 1 ∧
      (checkEmergencyOverflow s).sharedData.currentLight = (k : Int) + 1) ∧
    ((∀ i, i < 12 → (s.lanes (laneAt i)).count ≤ 15) →
      (checkEmergencyOverflow s).sharedData.emergency_override = 0 ∧
      (checkEmergencyOverflow s).sharedData.currentLight = s.sharedData.currentLight) ∧
    (checkEmergencyOverflow s).lanes = s.lanes ∧
    (checkEmergencyOverflow s).priorityQueue = s.priorityQueue ∧
    (checkEmergencyOverflow s).sharedData.high_priority_mode =
      s.sharedData.high_priority_mode := by
  have first : ∀ k, k < 12 → (s.lanes (laneAt k)).count > 15 →
      (∀ j, j < k → (s.lanes (laneAt j)).count ≤ 15) →
      (checkEmergencyOverflow s).sharedData.emergency_override = 1 ∧
      (checkEmergencyOverflow s).sharedData.currentLight = (k : Int) + 1 := by
    intro k hk hc hj
    rw [checkEmergencyOverflow_first h hk hc hj]
    exact ⟨rfl, rfl⟩
  have none : (∀ i, i < 12 → (s.lanes (laneAt i)).count ≤ 15) →
      (checkEmergencyOverflow s).sharedData.emergency_override = 0 ∧
      (checkEmergencyOverflow s).sharedData.currentLight = s.sharedData.currentLight := by
    intro hn
    rw [checkEmergencyOverflow_none h hn]
    exact ⟨rfl, rfl⟩
  by_cases hex : ∃ i, i < 12 ∧ (s.lanes (laneAt i)).count > 15
  · obtain ⟨k, hk, hc, hj⟩ := exists_first_over (fun i => (s.lanes (laneAt i)).count) 12 hex
    refine ⟨⟨fun _ => hex, fun _ => (first k hk hc hj).1⟩, first, none, ?_⟩
    rw [checkEmergencyOverflow_first h hk hc hj]
    exact ⟨rfl, rfl, rfl⟩
  · have hn : ∀ i, i < 12 → (s.lanes (laneAt i)).count ≤ 15 := by
      intro i hi
      by_contra hc
      exact hex ⟨i, hi, by omega⟩
    refine ⟨⟨fun h1 => ?_, fun h1 => absurd h1 hex⟩, first, none, ?_⟩
    · rw [(none hn).1] at h1
      exact absurd h1 (by decide)
    · rw [checkEmergencyOverflow_none h hn]
      exact ⟨rfl, rfl, rfl⟩

/-- Witness of C7: sixteen vehicles on B2 and seventeen on D1; the light goes to B2. -/
theorem C7_emergency_overflow_witness :
    TableOK (loaded overLoad 0) ∧ ((loaded overLoad 0).lanes (laneAt 4)).count > 15 ∧
    (checkEmergencyOverflow (loaded overLoad 0)).sharedData.emergency_override = 1 ∧
    (checkEmergencyOverflow (loaded overLoad 0)).sharedData.currentLight = 5 :=
  ⟨tableOK_initializePriorityQueue _, by decide,
    (C7_emergency_overflow (loaded overLoad 0) (tableOK_initializePriorityQueue _)).2.1 4
      (by decide) (by decide) (by decide)⟩

/-! ## Lane selection: claim C9 -/

/-- C9: with the table as `initializePriorityQueue` set it up, `getHighestPriorityLane`
returns 0 or `k + 1` for a non-empty lane `k` (an empty lane is never returned, whatever
its priority).  When the twelve priorities are all `≥ 0`, it returns 0 exactly when every
lane is empty, and otherwise `k + 1` for the non-empty lane `k` whose priority is maximal
among the non-empty lanes and strictly above that of every non-empty lane before it (ties
go to the lower index).  With A1 and B1 non-empty at priority 3 and every other lane
empty it returns 1. -/
theorem C9_highest_priority_lane (s : State) (h : TableOK s) :
    (getHighestPriorityLane s = 0 ∨
      ∃ k : Nat, k < 12 ∧ getHighestPriorityLane s = (k : Int) + 1 ∧
        is_empty (s.lanes (laneAt k)) = false) ∧
    ((∀ i, i < 12 → 0 ≤ (s.priorityQueue i).priority) →
      (getHighestPriorityLane s = 0 ↔ ∀ i, i < 12 → is_empty (s.lanes (laneAt i)) = true) ∧
      ((∃ i, i < 12 ∧ is_empty (s.lanes (laneAt i)) = false) →
        ∃ k : Nat, k < 12 ∧ getHighestPriorityLane s = (k : Int) + 1 ∧
          is_empty (s.lanes (laneAt k)) = false ∧
          (∀ j, j < 12 → is_empty (s.lanes (laneAt j)) = false →
            (s.priorityQueue j).priority ≤ (s.priorityQueue k).priority) ∧
          (∀ j, j < k → is_empty (s.lanes (laneAt j)) = false →
            (s.priorityQueue j).priority < (s.priorityQueue k).priority)) ∧
      ((s.priorityQueue 0).priority = 3 → (s.priorityQueue 3).priority = 3 →
        is_empty (s.lanes (laneAt 0)) = false → is_empty (s.lanes (laneAt 3)) = false →
        (∀ i, i < 12 → i ≠ 0 → i ≠ 3 → is_empty (s.lanes (laneAt i)) = true) →
        getHighestPriorityLane s = 1)) := by
  constructor
  · rcases getHighestPriorityLane_spec h with ⟨e, -⟩ | ⟨k, hk, e, hne, -⟩
    · exact Or.inl e
    · exact Or.inr ⟨k, hk, e, hne⟩
  · intro hp
    rcases getHighestPriorityLane_spec h with ⟨e, hall⟩ | ⟨k, hk, e, hne, -, hmax, hfirst⟩
    · have hempty : ∀ i, i < 12 → is_empty (s.lanes (laneAt i)) = true := by
        intro i hi
        by_contra hc
        have h1 := hall i hi (by simpa using hc)
        have h2 := hp i hi
        omega
      refine ⟨⟨fun _ => hempty, fun _ => e⟩, ?_, ?_⟩
      · rintro ⟨i, hi, hie⟩
        rw [hempty i hi] at hie
        exact absurd hie (by decide)
      · intro _ _ h0 _ _
        rw [hempty 0 (by decide)] at h0
        exact absurd h0 (by decide)
    · refine ⟨⟨fun h0 => ?_, fun hall => ?_⟩, fun _ => ⟨k, hk, e, hne, hmax, hfirst⟩, ?_⟩
      · rw [e] at h0; omega
      · rw [hall k hk] at hne
        exact absurd hne (by decide)
      · intro p0 p3 n0 n3 hrest
        have hk03 : k = 0 ∨ k = 3 := by
          by_contra hc
          push_neg at hc
          rw [hrest k hk hc.1 hc.2] at hne
          exact absurd hne (by decide)
        rcases hk03 with rfl | rfl
        · rw [e]; rfl
        · have := hfirst 0 (by decide) n0
          omega

/-- Witness of C9: three vehicles on A1 and three on B1, scored by `updatePriorityQueue`;
A1 is selected. -/
theorem C9_highest_priority_lane_witness :
    TableOK (updatePriorityQueue (loaded tieLoad 0)) ∧
    (∀ i, i < 12 → 0 ≤ ((updatePriorityQueue (loaded tieLoad 0)).priorityQueue i).priority) ∧
    getHighestPriorityLane (updatePriorityQueue (loaded tieLoad 0)) = 1 :=
  ⟨tableOK_updatePriorityQueue (tableOK_initializePriorityQueue _), by decide,
    ((C9_highest_priority_lane (updatePriorityQueue (loaded tieLoad 0))
      (tableOK_updatePriorityQueue (tableOK_initializePriorityQueue _))).2 (by decide)).2.2
      (by decide) (by decide) (by decide) (by decide) (by decide)⟩

/-! ## The scheduler tick: claims C8 and C10 -/

/-- C8 (the code departs from it): on a tick on which a dequeue is due, the lane the
emergency check forced is overwritten by the priority selection.  With sixteen vehicles
on D3, eleven on A2, no other lane loaded and the mode on, the emergency check fires for
D3 (`emergency_override = 1`, line `emergencyOverflow 12 16`), yet the tick ends with
`currentLight = 2`, a vehicle of A2 dequeued and D3 still holding sixteen; only on a tick
on which no dequeue is due does it end with `currentLight = 12`.  Likewise, with the mode
off, sixteen vehicles on C1 and seventeen on D3, the first lane over 15 is C1 (light 7),
and the due tick ends with `currentLight = 12`. -/
theorem C8_emergency_overwritten_when_due :
    ((loaded precedenceLoad 1).lanes LaneRef.laneD3).count = 16 ∧
    ((loaded precedenceLoad 1).lanes LaneRef.laneA2).count = 11 ∧
    (processQueuesTick 4000 (loaded precedenceLoad 1)).sharedData.emergency_override = 1 ∧
    (processQueuesTick 4000 (loaded precedenceLoad 1)).sharedData.high_priority_mode = 1 ∧
    (processQueuesTick 4000 (loaded precedenceLoad 1)).sharedData.currentLight = 2 ∧
    ((processQueuesTick 4000 (loaded precedenceLoad 1)).lanes LaneRef.laneA2).count = 10 ∧
    ((processQueuesTick 4000 (loaded precedenceLoad 1)).lanes LaneRef.laneD3).count = 16 ∧
    (processQueuesTick 4000 (loaded precedenceLoad 1)).out =
      [Output.queueStatus [0, 11, 0, 0, 0, 0, 0, 0, 0, 0, 0, 16] true 0,
        Output.emergencyOverflow 12 16, Output.normalDequeued "0" 65 2 10] ∧
    (processQueuesTick 3999 (loaded precedenceLoad 1)).sharedData.currentLight = 12 ∧
    (checkEmergencyOverflow (loaded laterLoad 0)).sharedData.currentLight = 7 ∧
    (processQueuesTick 4000 (loaded laterLoad 0)).sharedData.emergency_override = 1 ∧
    (processQueuesTick 4000 (loaded laterLoad 0)).sharedData.currentLight = 12 := by
  decide

/-- C16 (as stated, false): the lane queues do not carry the score.  After a due tick
on the state with three vehicles on A1 and three on B1, the engine's score for B1 is 3
and for A1 is 3, while `get_priority` of both queues is 0, the value `init_queue` gave. -/
theorem C16_queue_priority_not_assigned :
    ((processQueuesTick 4000 (loaded tieLoad 0)).priorityQueue 3).priority = 3 ∧
    get_priority ((processQueuesTick 4000 (loaded tieLoad 0)).lanes LaneRef.laneB1) = 0 ∧
    ¬ (∀ i, i < 12 →
      get_priority ((processQueuesTick 4000 (loaded tieLoad 0)).lanes (laneAt i)) =
        ((processQueuesTick 4000 (loaded tieLoad 0)).priorityQueue i).priority) := by
  decide

/-- C16 (amended): the score is carried by the table `priorityQueue`, not by the lane
queue.  With the table as `initializePriorityQueue` set it up, after every tick, for each
lane index `i` in `0..11`, `priorityQueue[i].priority` is the score the engine computed
in that tick: 1000 for A2 when the mode is on, otherwise the count the lane had when the
score was computed; and `get_priority` of every lane queue is what it was before the
tick. -/
theorem C16_score_kept_in_table (s : State) (t : Nat) (ht : TableOK s) :
    (∀ i, i < 12 →
      ((processQueuesTick t s).priorityQueue i).priority =
        if i = 1 ∧ (processQueuesTick t s).sharedData.high_priority_mode ≠ 0 then 1000
        else get_count (s.lanes (laneAt i))) ∧
    (∀ r, get_priority ((processQueuesTick t s).lanes r) = get_priority (s.lanes r)) := by
  obtain ⟨pl, pt, pm, pq, pp, -, -⟩ := tickPrologue_frame s
  obtain ⟨f1, f2, -, f4⟩ := serveVehicle_frame (currentTimeOf t) (tickPrologue s)
  have hp : ∀ i, i < 12 → ((tickPrologue s).priorityQueue i).priority =
      if i = 1 ∧ (tickPrologue s).sharedData.high_priority_mode ≠ 0 then 1000
      else get_count (s.lanes (laneAt i)) := by
    intro i hi
    rw [pp i hi, pm, ht i hi]
    simp only [laneAt_eq_laneA2 hi, get_count]
  unfold processQueuesTick
  split_ifs
  · refine ⟨fun i hi => ?_, fun r => ?_⟩
    · rw [f1, f2]; exact hp i hi
    · unfold get_priority
      rw [f4 r, pl]
  · refine ⟨hp, fun r => ?_⟩
    rw [pl]

/-- Witness of C16 (amended): the scores after a due tick with seven vehicles on A2 and
the mode on. -/
theorem C16_score_kept_in_table_witness :
    TableOK (loaded bandLoad 1) ∧
    ((processQueuesTick 4000 (loaded bandLoad 1)).priorityQueue 1).priority = 1000 ∧
    get_priority ((processQueuesTick 4000 (loaded bandLoad 1)).lanes LaneRef.laneA2) = 0 :=
  ⟨tableOK_initializePriorityQueue _,
    by simpa using (C16_score_kept_in_table (loaded bandLoad 1) 4000
      (tableOK_initializePriorityQueue _)).1 1 (by decide),
    ((C16_score_kept_in_table (loaded bandLoad 1) 4000
      (tableOK_initializePriorityQueue _)).2 LaneRef.laneA2).trans (by decide)⟩

/-- C17: right after `updatePriorityQueue`, whatever the mode and the count of A2 were,
the mode on implies that A2 holds at least 5 vehicles and the mode off implies that it
holds at most 10.  Hence in a tick the high-priority branch (mode on, no emergency
override) finds A2 non-empty: its alternative, which sets `currentLight = 0`, is not
taken, and on a due tick that branch ends with `currentLight = 2`. -/
theorem C17_priority_branch_finds_A2 (s : State) :
    ((updatePriorityQueue s).sharedData.high_priority_mode ≠ 0 →
      5 ≤ get_count ((updatePriorityQueue s).lanes LaneRef.laneA2)) ∧
    ((updatePriorityQueue s).sharedData.high_priority_mode = 0 →
      get_count ((updatePriorityQueue s).lanes LaneRef.laneA2) ≤ 10) ∧
    ((tickPrologue s).sharedData.high_priority_mode ≠ 0 ∧
        ¬ ((tickPrologue s).sharedData.emergency_override ≠ 0) →
      is_empty ((tickPrologue s).lanes LaneRef.laneA2) = false ∧
      ∀ t : Nat, f32Sub (currentTimeOf t) s.lastProcessTime ≥ TIME_PER_VEHICLE →
        (processQueuesTick t s).sharedData.currentLight = 2 ∧
        (processQueuesTick t s).lanes LaneRef.laneA2 = (dequeue (s.lanes LaneRef.laneA2)).2) := by
  obtain ⟨pl, pt, pm, -⟩ := tickPrologue_frame s
  obtain ⟨hi, lo, -⟩ := updatePriorityMode_spec s
  have h5 : (updatePriorityQueue s).sharedData.high_priority_mode ≠ 0 →
      5 ≤ (s.lanes LaneRef.laneA2).count := by
    intro hm
    by_contra hlt
    rw [updatePriorityQueue_sharedData] at hm
    exact hm (lo (by omega)).1
  refine ⟨?_, ?_, ?_⟩
  · intro hm
    rw [updatePriorityQueue_lanes]
    exact h5 hm
  · intro hm
    rw [updatePriorityQueue_lanes]
    by_contra hgt
    rw [updatePriorityQueue_sharedData, (hi (by unfold get_count at hgt; omega)).1] at hm
    exact absurd hm (by decide)
  · intro hb
    have hz : (s.lanes LaneRef.laneA2).count ≠ 0 := by
      have := h5 (by rw [← pm]; exact hb.1)
      omega
    have hne : is_empty ((tickPrologue s).lanes LaneRef.laneA2) = false := by
      rw [pl]; simp [is_empty, hz]
    refine ⟨hne, fun t hdue => ?_⟩
    obtain ⟨a, -, c, -⟩ := serveVehicle_priority_fields (currentTimeOf t) hb hne
    rw [pl] at a
    unfold processQueuesTick
    rw [pt, if_pos hdue]
    exact ⟨c, by rw [a]; simp⟩

/-- Witness of C17: seven vehicles on A2 with the mode on; the high-priority branch of a
due tick finds A2 non-empty. -/
theorem C17_priority_branch_finds_A2_witness :
    (updatePriorityQueue (loaded bandLoad 1)).sharedData.high_priority_mode ≠ 0 ∧
    5 ≤ get_count ((updatePriorityQueue (loaded bandLoad 1)).lanes LaneRef.laneA2) ∧
    is_empty ((tickPrologue (loaded bandLoad 1)).lanes LaneRef.laneA2) = false :=
  ⟨by decide, (C17_priority_branch_finds_A2 (loaded bandLoad 1)).1 (by decide),
    ((C17_priority_branch_finds_A2 (loaded bandLoad 1)).2.2 (by decide)).1⟩

/-! ## Ingestion: claims C12 and C13 -/

/-- C12 (as stated, false): a record that does not fit the line buffer is not routed as
the claim says.  The record of 102 bytes made of an id of 97 characters, road `A` and
lane `1` has three non-empty fields and targets A1, which is empty; `fgets` delivers it
as a line of 99 bytes holding two fields and a line of 3 bytes holding one, both are
dropped, and no queue receives a vehicle. -/
theorem C12_long_record_not_added :
    IsField (List.replicate 97 'I') ∧ IsField "A".toList ∧ IsField "1".toList ∧
    IsRoad ("A".toList.headD (Char.ofNat 0)) ∧
    longIdRecord = recordLine (List.replicate 97 'I') "A".toList "1".toList ++ ['\n'] ∧
    longIdRecord.length = 102 ∧
    laneAt (laneIndex 'A' (atoi "1".toList)) = LaneRef.laneA1 ∧
    is_full ((initialState 0).lanes LaneRef.laneA1) = false ∧
    (fileLines longIdRecord).map List.length = [99, 3] ∧
    (∀ i, i < 12 →
      contents ((readAndParseFile longIdRecord (initialState 0)).1.lanes (laneAt i)) = []) ∧
    (readAndParseFile longIdRecord (initialState 0)).2 = 0 := by
  decide

/-- C12 (amended): for a record `id:road:lane` of three non-empty fields whose line, with
its newline if it has one, is at most 99 bytes, `fgets` delivers the line whole, wherever
it stands in the file, and the loop body of `readAndParseFile` on it does this.  When the
road field starts with `A`, `B`, `C` or `D`, it targets the one queue at canonical index
`3 * (road - 'A') + j`, with `j = 0` when the lane integer is 1, `j = 1` when it is 2 and
`j = 2` otherwise: every other queue is unchanged; when the target is not full, the
vehicle (id cut to 8 characters, road character, lane integer) is enqueued on it, at its
tail, and counted; when it is full, it is unchanged too.  When the road field starts with
another character no queue changes.  The lane fields `3`, `0`, `7` and `-1` all lead to
the third lane of the road; the lane integer is the `int` that `atoi` returns, so the
lane field `4294967297` is lane 1. -/
theorem C12_record_routing :
    (∀ (sv : State × Int) (id road laneStr eol : List Char),
      IsField id → IsField road → IsField laneStr → IsLineEnd eol →
      (recordLine id road laneStr ++ eol).length ≤ 99 →
      (∀ pre post : List Char, (pre = [] ∨ ∃ p, pre = p ++ ['\n']) →
        (eol = ['\n'] ∨ post = []) →
        fileLines (pre ++ (recordLine id road laneStr ++ eol) ++ post) =
          fileLines pre ++ [recordLine id road laneStr ++ eol] ++ fileLines post) ∧
      (IsRoad (road.headD (Char.ofNat 0)) →
        laneIndex (road.headD (Char.ofNat 0)) (atoi laneStr) =
          3 * ((road.headD (Char.ofNat 0)).toNat - 'A'.toNat) +
            (if atoi laneStr = 1 then 0 else if atoi laneStr = 2 then 1 else 2) ∧
        laneIndex (road.headD (Char.ofNat 0)) (atoi laneStr) < 12 ∧
        (∀ r, r ≠ laneAt (laneIndex (road.headD (Char.ofNat 0)) (atoi laneStr)) →
          (processLine (recordLine id road laneStr ++ eol) sv).1.lanes r = sv.1.lanes r) ∧
        (is_full (sv.1.lanes (laneAt (laneIndex (road.headD (Char.ofNat 0)) (atoi laneStr))))
            = false →
          (processLine (recordLine id road laneStr ++ eol) sv).1.lanes
              (laneAt (laneIndex (road.headD (Char.ofNat 0)) (atoi laneStr))) =
            enqueue (sv.1.lanes (laneAt (laneIndex (road.headD (Char.ofNat 0)) (atoi laneStr))))
              { vehicle_id := String.mk (id.take 8), road := road.headD (Char.ofNat 0),
                lane := atoi laneStr } ∧
          (processLine (recordLine id road laneStr ++ eol) sv).2 = sv.2 + 1 ∧
          (QInv (sv.1.lanes (laneAt (laneIndex (road.headD (Char.ofNat 0)) (atoi laneStr)))) →
            contents ((processLine (recordLine id road laneStr ++ eol) sv).1.lanes
                (laneAt (laneIndex (road.headD (Char.ofNat 0)) (atoi laneStr)))) =
              contents (sv.1.lanes (laneAt (laneIndex (road.headD (Char.ofNat 0))
                (atoi laneStr)))) ++
                [{ vehicle_id := String.mk (id.take 8), road := road.headD (Char.ofNat 0),
                   lane := atoi laneStr }])) ∧
        (is_full (sv.1.lanes (laneAt (laneIndex (road.headD (Char.ofNat 0)) (atoi laneStr))))
            = true →
          (processLine (recordLine id road laneStr ++ eol) sv).1.lanes = sv.1.lanes ∧
          (processLine (recordLine id road laneStr ++ eol) sv).2 = sv.2)) ∧
      (¬ IsRoad (road.headD (Char.ofNat 0)) →
        (processLine (recordLine id road laneStr ++ eol) sv).1.lanes = sv.1.lanes ∧
        (processLine (recordLine id road laneStr ++ eol) sv).2 = sv.2)) ∧
    (laneAt (laneIndex 'B' (atoi "3".toList)) = LaneRef.laneB3 ∧
      laneAt (laneIndex 'B' (atoi "0".toList)) = LaneRef.laneB3 ∧
      laneAt (laneIndex 'B' (atoi "7".toList)) = LaneRef.laneB3 ∧
      laneAt (laneIndex 'B' (atoi "-1".toList)) = LaneRef.laneB3 ∧
      laneAt (laneIndex 'B' (atoi "1".toList)) = LaneRef.laneB1 ∧
      laneAt (laneIndex 'B' (atoi "2".toList)) = LaneRef.laneB2 ∧
      atoi "4294967297".toList = 1 ∧
      laneAt (laneIndex 'B' (atoi "4294967297".toList)) = LaneRef.laneB1 ∧
      atoi "2147483648".toList = -2147483648 ∧
      contents ((readAndParseFile "PLATE:D:-1\n".toList (initialState 0)).1.lanes
          LaneRef.laneD3) =
        [{ vehicle_id := "PLATE", road := 'D', lane := -1 }]) := by
  refine ⟨?_, by decide, by decide, by decide, by decide, by decide, by decide, by decide,
    by decide, by decide, by decide⟩
  intro sv id road laneStr eol hid hroad hlane heol hlen
  have hp := parseLine_record hid hroad hlane heol
  have hnl : ∀ c, c ∈ recordLine id road laneStr → c ≠ '\n' := by
    intro c hc
    simp only [recordLine, List.mem_append, List.mem_cons] at hc
    rcases hc with h | h | h | h | h
    · exact (hid.2 c h).2.1
    · subst h; decide
    · exact (hroad.2 c h).2.1
    · subst h; decide
    · exact (hlane.2 c h).2.1
  have hne : recordLine id road laneStr ++ eol ≠ [] := by
    obtain ⟨x, xs, hx⟩ := List.exists_cons_of_ne_nil hid.1
    simp [recordLine, hx]
  refine ⟨?_, ?_, ?_⟩
  · intro pre post hpre hpost
    have heol2 : eol = ['\n'] ∨ (eol = [] ∧ post = []) := by
      rcases hpost with h | h
      · exact Or.inl h
      · rcases heol with h2 | h2
        · exact Or.inr ⟨h2, h⟩
        · exact Or.inl h2
    rw [fileLines_middle hpre _ eol post heol2, fileLines_short_line hnl heol hne hlen]
  · intro hABCD
    obtain ⟨htq, hlt⟩ := targetQueue_laneIndex hABCD (atoi laneStr)
    rw [htq] at hp
    obtain ⟨hnf, hf⟩ := processLine_target (recordLine id road laneStr ++ eol) sv hp
    refine ⟨rfl, hlt, fun r hr => ?_, fun hfull => ?_, hf⟩
    · by_cases hfull : is_full (sv.1.lanes
          (laneAt (laneIndex (road.headD (Char.ofNat 0)) (atoi laneStr)))) = true
      · rw [(hf hfull).1]
      · rw [(hnf (by simpa using hfull)).1, Function.update_noteq hr]
    · obtain ⟨a, b⟩ := hnf hfull
      refine ⟨by rw [a, Function.update_same]; rfl, b, fun hq => ?_⟩
      rw [a, Function.update_same]
      have hc : (sv.1.lanes (laneAt (laneIndex (road.headD (Char.ofNat 0))
          (atoi laneStr)))).count ≠ 200 := by
        simpa [is_full, MAX_QUEUE_SIZE] using hfull
      exact contents_enqueue hq hc _
  · intro hother
    rw [targetQueue_other hother] at hp
    rw [processLine_no_target _ _ (Or.inr ⟨_, hp⟩)]
    exact ⟨rfl, rfl⟩

/-- Witness of C12 (amended): the record `ABC1234567:B:-1` of 16 bytes on the initial
state goes to B3 with its id cut to 8 characters. -/
theorem C12_record_routing_witness :
    IsField "ABC1234567".toList ∧ IsRoad ("B".toList.headD (Char.ofNat 0)) ∧
    (recordLine "ABC1234567".toList "B".toList "-1".toList ++ ['\n']).length ≤ 99 ∧
    laneIndex 'B' (atoi "-1".toList) = 5 ∧
    (processLine (recordLine "ABC1234567".toList "B".toList "-1".toList ++ ['\n'])
        (initialState 0, 0)).1.lanes (laneAt 5) =
      enqueue ((initialState 0).lanes (laneAt 5))
        { vehicle_id := "ABC12345", road := 'B', lane := -1 } :=
  ⟨by decide, by decide, by decide, by decide,
    (((C12_record_routing.1 (initialState 0, 0) "ABC1234567".toList "B".toList "-1".toList
      ['\n'] (by decide) (by decide) (by decide) (by decide) (by decide)).2.1
      (by decide)).2.2.2.1 (by decide)).1⟩

/-- C13 (as stated, false): a well-formed record whose target lane holds 200 vehicles can
change a queue when it does not fit the line buffer.  With 200 vehicles on A1 and none
on A3, the record `X:A:0...01` with 100 leading zeros in its lane field is for lane 1 of
road A; `fgets` cuts it after 95 zeros, the first piece parses as lane 0, and a vehicle is
enqueued on A3 and counted, where the file without the record leaves A3 empty. -/
theorem C13_long_record_enqueued_elsewhere :
    IsField "X".toList ∧ IsField "A".toList ∧
    IsField (List.replicate 100 '0' ++ "1".toList) ∧
    longLaneRecord =
      recordLine "X".toList "A".toList (List.replicate 100 '0' ++ "1".toList) ++ ['\n'] ∧
    atoi (List.replicate 100 '0' ++ "1".toList) = 1 ∧
    laneAt (laneIndex 'A' (atoi (List.replicate 100 '0' ++ "1".toList))) = LaneRef.laneA1 ∧
    (fullA1State.lanes LaneRef.laneA1).count = 200 ∧
    (fileLines longLaneRecord).map List.length = [99, 7] ∧
    contents ((readAndParseFile longLaneRecord fullA1State).1.lanes LaneRef.laneA3) =
      [{ vehicle_id := "X", road := 'A', lane := 0 }] ∧
    (readAndParseFile longLaneRecord fullA1State).2 = 1 ∧
    contents ((readAndParseFile [] fullA1State).1.lanes LaneRef.laneA3) = [] ∧
    (readAndParseFile [] fullA1State).2 = 0 := by
  decide

/-- C13 (amended): in a file, a blank line, a line with fewer than three non-empty fields
(of any length), and a record of three fields for a road `A` to `D`, of at most 99 bytes
with its newline, whose target lane holds 200 vehicles when the line is reached: none of
the lines `fgets` makes of it changes a queue or is counted as added, and the file ends
with the same twelve queues and the same count of added vehicles as the file without
that line.  The line stands after whole lines (`pre` is empty or ends with a newline)
and is ended by a newline or by the end of the file. -/
theorem C13_skipped_lines (s : State) (pre post text eol : List Char)
    (hpre : pre = [] ∨ ∃ p, pre = p ++ ['\n'])
    (heol : eol = ['\n'] ∨ (eol = [] ∧ post = []))
    (h : text = [] ∨ (fieldsOf text).length < 3 ∨
      ∃ id road laneStr : List Char,
        IsField id ∧ IsField road ∧ IsField laneStr ∧ text = recordLine id road laneStr ∧
        (text ++ eol).length ≤ 99 ∧ IsRoad (road.headD (Char.ofNat 0)) ∧
        ((readAndParseFile pre s).1.lanes
          (laneAt (laneIndex (road.headD (Char.ofNat 0)) (atoi laneStr)))).count = 200) :
    fileLines (pre ++ (text ++ eol) ++ post) =
      fileLines pre ++ fileLines (text ++ eol) ++ fileLines post ∧
    (∀ buf, buf ∈ fileLines (text ++ eol) →
      (processLine buf (readAndParseFile pre s)).1.lanes = (readAndParseFile pre s).1.lanes ∧
      (processLine buf (readAndParseFile pre s)).2 = (readAndParseFile pre s).2) ∧
    (readAndParseFile (pre ++ (text ++ eol) ++ post) s).1.lanes =
      (readAndParseFile (pre ++ post) s).1.lanes ∧
    (readAndParseFile (pre ++ (text ++ eol) ++ post) s).2 =
      (readAndParseFile (pre ++ post) s).2 := by
  have hend : IsLineEnd eol := by
    rcases heol with h1 | ⟨h1, -⟩
    · exact Or.inr h1
    · exact Or.inl h1
  refine ⟨fileLines_middle hpre text eol post heol, ?_⟩
  have few : (fieldsOf text).length < 3 →
      ∀ buf, buf ∈ fileLines (text ++ eol) → parseLine buf = none := by
    intro hf
    exact fileLinesFrom_few_fields [] [] text eol hend (by simpa using hf)
  have viaNone : (∀ buf, buf ∈ fileLines (text ++ eol) → parseLine buf = none) →
      (∀ buf, buf ∈ fileLines (text ++ eol) →
        (processLine buf (readAndParseFile pre s)).1.lanes = (readAndParseFile pre s).1.lanes ∧
        (processLine buf (readAndParseFile pre s)).2 = (readAndParseFile pre s).2) ∧
      (readAndParseFile (pre ++ (text ++ eol) ++ post) s).1.lanes =
        (readAndParseFile (pre ++ post) s).1.lanes ∧
      (readAndParseFile (pre ++ (text ++ eol) ++ post) s).2 =
        (readAndParseFile (pre ++ post) s).2 := by
    intro hn
    refine ⟨fun buf hb => ?_, ?_⟩
    · rw [processLine_no_target _ _ (Or.inl (hn buf hb))]
      exact ⟨rfl, rfl⟩
    · apply readAndParseFile_skip s hpre text eol post heol
      rw [foldl_processLine_none _ hn]
      exact ⟨rfl, rfl⟩
  rcases h with h | h | ⟨id, road, laneStr, hid, hroad, hlane, htext, hlen, hABCD, hfull⟩
  · exact viaNone (few (by rw [h, fieldsOf_nil]; decide))
  · exact viaNone (few h)
  · have hnl : ∀ c, c ∈ text → c ≠ '\n' := by
      intro c hc
      rw [htext] at hc
      simp only [recordLine, List.mem_append, List.mem_cons] at hc
      rcases hc with h | h | h | h | h
      · exact (hid.2 c h).2.1
      · subst h; decide
      · exact (hroad.2 c h).2.1
      · subst h; decide
      · exact (hlane.2 c h).2.1
    have hne : text ++ eol ≠ [] := by
      obtain ⟨x, xs, hx⟩ := List.exists_cons_of_ne_nil hid.1
      simp [htext, recordLine, hx]
    have hone : fileLines (text ++ eol) = [text ++ eol] :=
      fileLines_short_line hnl hend hne hlen
    rw [hone]
    refine ⟨fun buf hb => ?_, ?_⟩
    · rw [List.mem_singleton] at hb
      subst hb
      exact processLine_skip _ _ (Or.inr (Or.inr ⟨id, road, laneStr, eol, hid, hroad, hlane,
        hend, by rw [htext], hABCD, hfull⟩))
    · apply readAndParseFile_skip s hpre text eol post heol
      rw [hone, List.foldl_cons, List.foldl_nil]
      rw [(readAndParseFile_eq pre s).1] at hfull
      exact processLine_skip _ _ (Or.inr (Or.inr ⟨id, road, laneStr, eol, hid, hroad, hlane,
        hend, by rw [htext], hABCD, hfull⟩))

/-- Witness of C13 (amended): with 200 vehicles on A1, a record for A1 between a short
line and a record for A2 is dropped; the file ends as the file without it. -/
theorem C13_skipped_lines_witness :
    (fullA1State.lanes LaneRef.laneA1).count = 200 ∧
    (readAndParseFile ("\njunk:A\n".toList ++ ("CAR00001:A:1".toList ++ ['\n']) ++
        "CAR00002:A:2\n".toList) fullA1State).1.lanes =
      (readAndParseFile ("\njunk:A\n".toList ++ "CAR00002:A:2\n".toList) fullA1State).1.lanes ∧
    (readAndParseFile ("\njunk:A\n".toList ++ ("CAR00001:A:1".toList ++ ['\n']) ++
        "CAR00002:A:2\n".toList) fullA1State).2 = 1 :=
  ⟨by decide,
    (C13_skipped_lines fullA1State "\njunk:A\n".toList "CAR00002:A:2\n".toList
      "CAR00001:A:1".toList ['\n'] (Or.inr ⟨"\njunk:A".toList, by decide⟩) (Or.inl rfl)
      (Or.inr (Or.inr ⟨"CAR00001".toList, "A".toList, "1".toList, by decide, by decide,
        by decide, by decide, by decide, by decide, by decide⟩))).2.2.1,
    ((C13_skipped_lines fullA1State "\njunk:A\n".toList "CAR00002:A:2\n".toList
      "CAR00001:A:1".toList ['\n'] (Or.inr ⟨"\njunk:A".toList, by decide⟩) (Or.inl rfl)
      (Or.inr (Or.inr ⟨"CAR00001".toList, "A".toList, "1".toList, by decide, by decide,
        by decide, by decide, by decide, by decide, by decide⟩))).2.2.2).trans (by decide)⟩

end TrafficSim
